import Mathlib

/-!
Shallow embedding of the `gh-env-sync` tool (crate `crates/gh-env-sync`):
the GitHub API client (`src/gh_client.rs`) and the reconciler driving it
(`src/main.rs`).

Modelling choices:
* The HTTP transport is an explicit responder: a function
  `σ → Request → HttpResponse × σ` over an abstract remote-state type `σ`.
  Sending a request always yields a response (transport-level failures are
  out of scope of the claims, which are about HTTP status handling).
* Request/response bodies are modelled structurally: a request body is the
  structured JSON payload the code serializes, and a response body is a
  value that either is (a serialization of) the shape the code tries to
  decode with serde, or is not.  `res.json::<T>()` becomes a pattern match
  on that shape.
* `reqwest`'s `Response::error_for_status` errors exactly on client-error
  (400-499) and server-error (500-599) statuses; this is `isErrorStatus`.
* The `reqwest::Error` produced by `error_for_status` carries the URL and
  the HTTP status of the response but not its body (the body is dropped);
  accordingly the embedded error values carry the status.
* Every operation returns its result, the updated remote state, and the
  list of HTTP requests it issued, in order.
-/

/-- HTTP methods used by the client. -/
inductive Method where
  | GET
  | PUT
  | POST
  | PATCH
  | DELETE
deriving DecidableEq, Repr

/-- The REST endpoints addressed by the client, in structured form.  The
concrete URL string each one stands for is `endpointUrl`, which mirrors the
`format!` calls in `gh_client.rs`. -/
inductive Endpoint where
  /-- `GET /repos/:owner/:name` (repository lookup at construction). -/
  | repoDetails (owner name : String)
  /-- `GET /repos/:owner/:name/environments`. -/
  | envCollection (owner name : String)
  /-- `PUT`/`DELETE /repos/:owner/:name/environments/:env`. -/
  | envResource (owner name env : String)
  /-- `POST /repositories/:id/environments/:env/variables`. -/
  | varCollection (repoId : Nat) (env : String)
  /-- `GET`/`PATCH`/`DELETE /repositories/:id/environments/:env/variables/:key`. -/
  | varResource (repoId : Nat) (env key : String)
deriving DecidableEq, Repr

/-- The URL string the source builds for each endpoint (`format!` calls in
`gh_client.rs`). -/
def endpointUrl : Endpoint → String
  | Endpoint.repoDetails owner name =>
      "https://api.github.com/repos/" ++ owner ++ "/" ++ name
  | Endpoint.envCollection owner name =>
      "https://api.github.com/repos/" ++ owner ++ "/" ++ name ++ "/environments"
  | Endpoint.envResource owner name env =>
      "https://api.github.com/repos/" ++ owner ++ "/" ++ name ++ "/environments/" ++ env
  | Endpoint.varCollection repoId env =>
      "https://api.github.com/repositories/" ++ toString repoId ++ "/environments/" ++
        env ++ "/variables"
  | Endpoint.varResource repoId env key =>
      "https://api.github.com/repositories/" ++ toString repoId ++ "/environments/" ++
        env ++ "/variables/" ++ key

/-- Structured JSON request bodies the client serializes. -/
inductive ReqBody where
  /-- `serde_json::json!({ "name": key, "value": value })` (create). -/
  | nameValue (name value : String)
  /-- `serde_json::json!({ "value": value })` (update). -/
  | valueOnly (value : String)
deriving DecidableEq, Repr

/-- `struct User \x7b login \x7d` from `gh_client.rs`. -/
structure User where
  login : String
deriving DecidableEq, Repr

/-- `struct Repository \x7b id, name, owner \x7d` from `gh_client.rs`. -/
structure Repository where
  id : Nat
  name : String
  owner : User
deriving DecidableEq, Repr

/-- A response body, modelled as the decodable shape it carries (if any):
`repoJson r` is a body that `res.json::<Repository>()` decodes to `r`,
`varJson v` one that decodes to `VariableResponse \x7b value: v \x7d`,
`envsJson l` one that decodes to `ListEnvironmentsResponse` with names `l`,
and `rawText s` any other body. -/
inductive RespBody where
  | empty
  | repoJson (r : Repository)
  | varJson (v : String)
  | envsJson (l : List String)
  | rawText (s : String)
deriving DecidableEq, Repr

/-- An outgoing HTTP request: method, endpoint (whose URL is `endpointUrl`),
headers in the order they are attached, and optional JSON body. -/
structure Request where
  method : Method
  endpoint : Endpoint
  headers : List (String × String)
  body : Option ReqBody
deriving DecidableEq, Repr

/-- An HTTP response: status code and body. -/
structure HttpResponse where
  status : Nat
  body : RespBody
deriving DecidableEq, Repr

/-- `reqwest::Response::error_for_status` errors exactly when the status is a
client error (400-499) or a server error (500-599). -/
def isErrorStatus (s : Nat) : Bool :=
  (400 ≤ s && s ≤ 499) || (500 ≤ s && s ≤ 599)

/-- `res.json::<Repository>()`: succeeds exactly on a repository-shaped body. -/
def decodeRepository : RespBody → Option Repository
  | RespBody.repoJson r => some r
  | _ => none

/-- `res.json::<VariableResponse>()`: succeeds exactly on a variable-shaped
body, yielding its `value` field. -/
def decodeVariableValue : RespBody → Option String
  | RespBody.varJson v => some v
  | _ => none

/-- `res.json::<ListEnvironmentsResponse>()` followed by mapping each
environment to its name. -/
def decodeEnvironmentNames : RespBody → Option (List String)
  | RespBody.envsJson l => some l
  | _ => none

/-- The errors the code produces with `eyre!`.  A `reqwest::Error` from
`error_for_status` carries the response's status (and URL), never its body,
so these variants record the status; `decodeError` stands for a failed
`res.json()` call (`?` on the decode). -/
inductive GhError where
  /-- "Error getting repository details: \x7be\x7d". -/
  | repoLookup (status : Nat)
  /-- "Error ...: \x7be\x7d" from a named client operation. -/
  | opError (op : String) (status : Nat)
  /-- A `res.json().await?` failure. -/
  | decodeError
deriving DecidableEq, Repr

/-- `bearer_auth(token)` attaches this header. -/
def bearerAuthHeader (token : String) : String × String :=
  ("Authorization", "Bearer " ++ token)

/-- The client struct from `gh_client.rs` (minus the reqwest connection pool,
which carries no data the claims mention). -/
structure GithubEnvClient where
  token : String
  username : String
  repository : Repository
deriving DecidableEq, Repr

/-- `with_env_client`: the four headers attached to every request issued
through a `GithubEnvClient` (gh_client.rs lines 404-411), in order. -/
def withEnvClientHeaders (c : GithubEnvClient) : List (String × String) :=
  [bearerAuthHeader c.token,
   ("User-Agent", c.username),
   ("Accept", "application/vnd.github.v3+json"),
   ("X-Github-Api-Version", "2022-11-28")]

/-- The headers `get_repository_details` attaches (gh_client.rs lines
381-386): bearer auth, User-Agent and API version - there is no Accept
header on this request. -/
def repoLookupHeaders (username token : String) : List (String × String) :=
  [bearerAuthHeader token,
   ("User-Agent", username),
   ("X-Github-Api-Version", "2022-11-28")]

/-- A remote responder over remote-state type `σ`. -/
abbrev Responder (σ : Type) : Type :=
  σ → Request → HttpResponse × σ

/-- The outcome of running an operation: its result, the remote state after
it, and the requests it issued in order. -/
abbrev OpOutcome (σ α : Type) : Type :=
  Except GhError α × σ × List Request

/-- The request `get_repository_details` sends. -/
def repoDetailsRequest (username token repository_owner repository_name : String) :
    Request :=
  { method := Method.GET,
    endpoint := Endpoint.repoDetails repository_owner repository_name,
    headers := repoLookupHeaders username token,
    body := none }

/-- `get_repository_details` (gh_client.rs lines 367-398): one GET to the
repository endpoint; on an error status the `eyre!` error wraps the reqwest
error (which holds the status); otherwise the body is decoded as a
`Repository`. -/
def get_repository_details {σ : Type} (remote : Responder σ) (s : σ)
    (username token repository_owner repository_name : String) :
    OpOutcome σ Repository :=
  let req := repoDetailsRequest username token repository_owner repository_name
  let (response, s1) := remote s req
  if isErrorStatus response.status then
    (Except.error (GhError.repoLookup response.status), s1, [req])
  else
    match decodeRepository response.body with
    | some repository => (Except.ok repository, s1, [req])
    | none => (Except.error GhError.decodeError, s1, [req])

/-- `GithubEnvClient::init` (gh_client.rs lines 58-85): fetch the repository
details, then build the client storing username, token and the repository. -/
def GithubEnvClient.init {σ : Type} (remote : Responder σ) (s : σ)
    (username token : String) (repository_owner repository_name : String) :
    OpOutcome σ GithubEnvClient :=
  let (r, s1, t) :=
    get_repository_details remote s username token repository_owner repository_name
  match r with
  | Except.ok repository =>
      (Except.ok { username := username, token := token, repository := repository },
       s1, t)
  | Except.error e => (Except.error e, s1, t)

/-- The request `list_environments` sends. -/
def listEnvironmentsRequest (c : GithubEnvClient) : Request :=
  { method := Method.GET,
    endpoint := Endpoint.envCollection c.repository.owner.login c.repository.name,
    headers := withEnvClientHeaders c,
    body := none }

/-- `list_environments` (gh_client.rs lines 89-112). -/
def list_environments {σ : Type} (c : GithubEnvClient) (remote : Responder σ)
    (s : σ) : OpOutcome σ (List String) :=
  let req := listEnvironmentsRequest c
  let (response, s1) := remote s req
  if isErrorStatus response.status then
    (Except.error (GhError.opError "list_environments" response.status), s1, [req])
  else
    match decodeEnvironmentNames response.body with
    | some names => (Except.ok names, s1, [req])
    | none => (Except.error GhError.decodeError, s1, [req])

/-- The request `upsert_environment` sends. -/
def upsertEnvironmentRequest (c : GithubEnvClient) (environment_name : String) :
    Request :=
  { method := Method.PUT,
    endpoint :=
      Endpoint.envResource c.repository.owner.login c.repository.name environment_name,
    headers := withEnvClientHeaders c,
    body := none }

/-- `upsert_environment` (gh_client.rs lines 116-141): an idempotent PUT on the
environment resource. -/
def upsert_environment {σ : Type} (c : GithubEnvClient) (remote : Responder σ)
    (s : σ) (environment_name : String) : OpOutcome σ Unit :=
  let req := upsertEnvironmentRequest c environment_name
  let (response, s1) := remote s req
  if isErrorStatus response.status then
    (Except.error (GhError.opError "upsert_environment" response.status), s1, [req])
  else
    (Except.ok (), s1, [req])

/-- The request `delete_environment` sends. -/
def deleteEnvironmentRequest (c : GithubEnvClient) (environment_name : String) :
    Request :=
  { method := Method.DELETE,
    endpoint :=
      Endpoint.envResource c.repository.owner.login c.repository.name environment_name,
    headers := withEnvClientHeaders c,
    body := none }

/-- `delete_environment` (gh_client.rs lines 146-171, unused by the default
flow). -/
def delete_environment {σ : Type} (c : GithubEnvClient) (remote : Responder σ)
    (s : σ) (environment_name : String) : OpOutcome σ Unit :=
  let req := deleteEnvironmentRequest c environment_name
  let (response, s1) := remote s req
  if isErrorStatus response.status then
    (Except.error (GhError.opError "delete_environment" response.status), s1, [req])
  else
    (Except.ok (), s1, [req])

/-- The request `create_environment_variable` sends: POST to the variable
collection with body `\x7b "name": key, "value": value \x7d`. -/
def createVariableRequest (c : GithubEnvClient) (environment_name key value : String) :
    Request :=
  { method := Method.POST,
    endpoint := Endpoint.varCollection c.repository.id environment_name,
    headers := withEnvClientHeaders c,
    body := some (ReqBody.nameValue key value) }

/-- `create_environment_variable` (gh_client.rs lines 175-215). -/
def create_environment_variable {σ : Type} (c : GithubEnvClient)
    (remote : Responder σ) (s : σ) (environment_name key value : String) :
    OpOutcome σ Unit :=
  let req := createVariableRequest c environment_name key value
  let (response, s1) := remote s req
  if isErrorStatus response.status then
    (Except.error (GhError.opError "create_environment_variable" response.status),
     s1, [req])
  else
    (Except.ok (), s1, [req])

/-- The request `get_environment_variable` sends. -/
def getVariableRequest (c : GithubEnvClient) (environment_name key : String) :
    Request :=
  { method := Method.GET,
    endpoint := Endpoint.varResource c.repository.id environment_name key,
    headers := withEnvClientHeaders c,
    body := none }

/-- `get_environment_variable` (gh_client.rs lines 219-262): 404 is NOT an
error but an explicit absent result (`Ok(None)`); any other error status is
an error; otherwise the body is decoded as a `VariableResponse` and its
value returned as present. -/
def get_environment_variable {σ : Type} (c : GithubEnvClient)
    (remote : Responder σ) (s : σ) (environment_name key : String) :
    OpOutcome σ (Option String) :=
  let req := getVariableRequest c environment_name key
  let (response, s1) := remote s req
  if isErrorStatus response.status then
    if response.status = 404 then
      (Except.ok none, s1, [req])
    else
      (Except.error (GhError.opError "get_environment_variable" response.status),
       s1, [req])
  else
    match decodeVariableValue response.body with
    | some v => (Except.ok (some v), s1, [req])
    | none => (Except.error GhError.decodeError, s1, [req])

/-- The request `update_environment_variable` sends: PATCH to the variable
resource with body `\x7b "value": value \x7d` (the key is in the URL path). -/
def updateVariableRequest (c : GithubEnvClient) (environment_name key value : String) :
    Request :=
  { method := Method.PATCH,
    endpoint := Endpoint.varResource c.repository.id environment_name key,
    headers := withEnvClientHeaders c,
    body := some (ReqBody.valueOnly value) }

/-- `update_environment_variable` (gh_client.rs lines 266-306). -/
def update_environment_variable {σ : Type} (c : GithubEnvClient)
    (remote : Responder σ) (s : σ) (environment_name key value : String) :
    OpOutcome σ Unit :=
  let req := updateVariableRequest c environment_name key value
  let (response, s1) := remote s req
  if isErrorStatus response.status then
    (Except.error (GhError.opError "update_environment_variable" response.status),
     s1, [req])
  else
    (Except.ok (), s1, [req])

/-- `upsert_environment_variable` (gh_client.rs lines 310-326): get the
variable; on `Some(_)` update it, on `None` create it, propagating a failed
get with `?`. -/
def upsert_environment_variable {σ : Type} (c : GithubEnvClient)
    (remote : Responder σ) (s : σ) (environment_name key value : String) :
    OpOutcome σ Unit :=
  let (g, s1, t1) := get_environment_variable c remote s environment_name key
  match g with
  | Except.error e => (Except.error e, s1, t1)
  | Except.ok (some _) =>
      let (u, s2, t2) :=
        update_environment_variable c remote s1 environment_name key value
      (u, s2, t1 ++ t2)
  | Except.ok none =>
      let (u, s2, t2) :=
        create_environment_variable c remote s1 environment_name key value
      (u, s2, t1 ++ t2)

/-- The request `delete_environment_variable` sends. -/
def deleteVariableRequest (c : GithubEnvClient) (environment_name key : String) :
    Request :=
  { method := Method.DELETE,
    endpoint := Endpoint.varResource c.repository.id environment_name key,
    headers := withEnvClientHeaders c,
    body := none }

/-- `delete_environment_variable` (gh_client.rs lines 331-363, unused by the
default flow). -/
def delete_environment_variable {σ : Type} (c : GithubEnvClient)
    (remote : Responder σ) (s : σ) (environment_name key : String) :
    OpOutcome σ Unit :=
  let req := deleteVariableRequest c environment_name key
  let (response, s1) := remote s req
  if isErrorStatus response.status then
    (Except.error (GhError.opError "delete_environment_variable" response.status),
     s1, [req])
  else
    (Except.ok (), s1, [req])

/-!
## Reconciler (`src/main.rs`)

`Environment = HashMap<String, String>` and
`ConfigDocument = HashMap<String, Environment>` are modelled as association
lists: a list fixes the (unspecified) iteration order of the hash map, and
quantifying over all lists covers every order the map could produce.
-/

/-- The per-environment variable mapping (`type Environment`), in iteration
order. -/
abbrev EnvironmentVars : Type :=
  List (String × String)

/-- The configuration document (`type ConfigDocument`), in iteration order. -/
abbrev ConfigDocument : Type :=
  List (String × EnvironmentVars)

/-- CLI arguments (`cli.rs`), minus the config path, which is consumed before
`sync_environments` runs. -/
structure Args where
  repository : String
  environment : Option String
  token : String
  username : Option String
deriving DecidableEq, Repr

/-- `str::split_once('/')` on the underlying character list: everything
before the first `'/'` and everything after it (which may itself contain
further slashes); `none` when no slash occurs. -/
def splitOnceChars : List Char → Option (List Char × List Char)
  | [] => none
  | c :: cs =>
      if c = '/' then some ([], cs)
      else
        match splitOnceChars cs with
        | none => none
        | some (a, b) => some (c :: a, b)

/-- `options.repository.split_once('/')` (main.rs line 44). -/
def splitOnceSlash (s : String) : Option (String × String) :=
  match splitOnceChars s.data with
  | none => none
  | some (a, b) => some (String.mk a, String.mk b)

/-- How a run of the reconciler can fail: a `.expect(..)` panic on a violated
precondition, or a propagated client error. -/
inductive SyncError where
  | panicExpect (msg : String)
  | api (e : GhError)
deriving DecidableEq, Repr

/-- The outcome of a reconciler run. -/
abbrev RunOutcome (σ : Type) : Type :=
  Except SyncError Unit × σ × List Request

/-- The variable loop of `sync_one_environment` (main.rs lines 32-36):
upsert each pair in order, stopping at the first failure. -/
def syncVars {σ : Type} (c : GithubEnvClient) (remote : Responder σ)
    (environment_name : String) :
    σ → EnvironmentVars → OpOutcome σ Unit
  | s, [] => (Except.ok (), s, [])
  | s, (key, value) :: rest =>
      let (r, s1, t1) :=
        upsert_environment_variable c remote s environment_name key value
      match r with
      | Except.error e => (Except.error e, s1, t1)
      | Except.ok _ =>
          let (r2, s2, t2) := syncVars c remote environment_name s1 rest
          (r2, s2, t1 ++ t2)

/-- `sync_one_environment` (main.rs lines 19-39): upsert the environment,
then upsert each of its variables, failing fast. -/
def sync_one_environment {σ : Type} (c : GithubEnvClient) (remote : Responder σ)
    (s : σ) (environment_name : String) (environment : EnvironmentVars) :
    OpOutcome σ Unit :=
  let (r, s1, t1) := upsert_environment c remote s environment_name
  match r with
  | Except.error e => (Except.error e, s1, t1)
  | Except.ok _ =>
      let (r2, s2, t2) := syncVars c remote environment_name s1 environment
      (r2, s2, t1 ++ t2)

/-- The all-environments loop of `sync_environments` (main.rs lines 80-82):
sync each environment of the document in order, stopping at the first
failure. -/
def syncAllEnvironments {σ : Type} (c : GithubEnvClient) (remote : Responder σ) :
    σ → ConfigDocument → OpOutcome σ Unit
  | s, [] => (Except.ok (), s, [])
  | s, (env_key, env_config_dict) :: rest =>
      let (r, s1, t1) := sync_one_environment c remote s env_key env_config_dict
      match r with
      | Except.error e => (Except.error e, s1, t1)
      | Except.ok _ =>
          let (r2, s2, t2) := syncAllEnvironments c remote s1 rest
          (r2, s2, t1 ++ t2)

/-- `HashMap::get` on the association-list model. -/
def configGet (config : ConfigDocument) (name : String) : Option EnvironmentVars :=
  match config.find? (fun p => p.fst = name) with
  | some p => some p.snd
  | none => none

/-- Lift a client-operation outcome into a run outcome. -/
def liftOutcome {σ : Type} : OpOutcome σ Unit → RunOutcome σ
  | (Except.ok _, s, t) => (Except.ok (), s, t)
  | (Except.error e, s, t) => (Except.error (SyncError.api e), s, t)

/-- `sync_environments` (main.rs lines 43-87): split the `owner/repo`
argument (panicking via `.expect` when there is no slash), default the
username to the owner, initialize the client (one repository-lookup GET),
then sync either the single selected environment (panicking via `.expect`
when it is not a key of the document) or every environment in the
document. -/
def sync_environments {σ : Type} (remote : Responder σ) (s : σ)
    (config : ConfigDocument) (options : Args) : RunOutcome σ :=
  match splitOnceSlash options.repository with
  | none =>
      (Except.error (SyncError.panicExpect
        "Expected <REPOSITORY> argument to be a owner/repo_name pair, e.g. rust-lang/rust-lang"),
       s, [])
  | some (repository_owner, repository_name) =>
      let username :=
        match options.username with
        | some u => u
        | none => repository_owner
      let (ci, s1, t1) :=
        GithubEnvClient.init remote s username options.token repository_owner
          repository_name
      match ci with
      | Except.error e => (Except.error (SyncError.api e), s1, t1)
      | Except.ok gh_client =>
          match options.environment with
          | some environment =>
              match configGet config environment with
              | none =>
                  (Except.error (SyncError.panicExpect
                    "Expected the --environment argument to be one of the environments defined in the config document"),
                   s1, t1)
              | some env_config_dict =>
                  let (r, s2, t2) :=
                    sync_one_environment gh_client remote s1 environment env_config_dict
                  match liftOutcome (r, s2, t2) with
                  | (r2, s3, t3) => (r2, s3, t1 ++ t3)
          | none =>
              let (r, s2, t2) := syncAllEnvironments gh_client remote s1 config
              match liftOutcome (r, s2, t2) with
              | (r2, s3, t3) => (r2, s3, t1 ++ t3)

/-!
## Trace observations

Predicates classifying issued requests, used to state how often each
remote operation occurs in a run's request trace.
-/

/-- The request is the idempotent environment PUT for environment `e`. -/
def isEnvPutFor (e : String) (r : Request) : Bool :=
  r.method == Method.PUT &&
    match r.endpoint with
    | Endpoint.envResource _ _ env => env == e
    | _ => false

/-- The request reads variable `k` of environment `e` (the GET that
`get_environment_variable` issues). -/
def isGetVarFor (e k : String) (r : Request) : Bool :=
  r.method == Method.GET &&
    match r.endpoint with
    | Endpoint.varResource _ env key => env == e && key == k
    | _ => false

/-- The request is the create POST for variable `k` of environment `e` with
value `v`. -/
def isCreateVarFor (e k v : String) (r : Request) : Bool :=
  r.method == Method.POST &&
    (match r.endpoint with
     | Endpoint.varCollection _ env => env == e
     | _ => false) &&
    r.body == some (ReqBody.nameValue k v)

/-- The request is the update PATCH for variable `k` of environment `e` with
value `v`. -/
def isUpdateVarFor (e k v : String) (r : Request) : Bool :=
  r.method == Method.PATCH &&
    (match r.endpoint with
     | Endpoint.varResource _ env key => env == e && key == k
     | _ => false) &&
    r.body == some (ReqBody.valueOnly v)

/-- The request addresses a variable endpoint of environment `e`. -/
def isVarCallFor (e : String) (r : Request) : Bool :=
  match r.endpoint with
  | Endpoint.varCollection _ env => env == e
  | Endpoint.varResource _ env _ => env == e
  | _ => false

/-- Equality of operation results is decidable (used to evaluate the
development on closed inputs). -/
instance {ε α : Type} [DecidableEq ε] [DecidableEq α] : DecidableEq (Except ε α) :=
  fun a b =>
    match a, b with
    | Except.ok x, Except.ok y =>
        if h : x = y then Decidable.isTrue (by rw [h])
        else Decidable.isFalse (by intro hc; cases hc; exact h rfl)
    | Except.error x, Except.error y =>
        if h : x = y then Decidable.isTrue (by rw [h])
        else Decidable.isFalse (by intro hc; cases hc; exact h rfl)
    | Except.ok _, Except.error _ => Decidable.isFalse (by intro hc; cases hc)
    | Except.error _, Except.ok _ => Decidable.isFalse (by intro hc; cases hc)

/-- The request carries the four headers `with_env_client` attaches: bearer
authentication with the stored token, the stored identity as User-Agent, the
GitHub JSON Accept media type, and the dated API version. -/
def hasFourHeaders (c : GithubEnvClient) (r : Request) : Prop :=
  bearerAuthHeader c.token ∈ r.headers ∧
  ("User-Agent", c.username) ∈ r.headers ∧
  ("Accept", "application/vnd.github.v3+json") ∈ r.headers ∧
  ("X-Github-Api-Version", "2022-11-28") ∈ r.headers

/-- The request addresses the repository-details endpoint (the
construction-time lookup), as opposed to any environment or variable
operation. -/
def isRepoLookup (r : Request) : Bool :=
  match r.endpoint with
  | Endpoint.repoDetails _ _ => true
  | _ => false

/-!
### A reference remote for state reasoning

Modelled from the spec: the GitHub REST surface the tool talks to (spec
section 6 and the operations table in section 4.1), as a stateful responder
for a single repository.  The repository-id/owner checks on variable
endpoints are elided because the client always addresses the one repository
the server holds.
-/

/-- Remote state: which environments exist and each environment variable's
value.  The variable table is a function so that states compare
extensionally. -/
@[ext] structure RemoteState where
  envs : List String
  varValue : String → String → Option String

/-- Create-if-absent on the environment list (idempotent PUT semantics). -/
def insertEnvName (e : String) (l : List String) : List String :=
  if e ∈ l then l else e :: l

/-- Write a variable's value (both create and update end in this state). -/
def setVar (st : RemoteState) (env key value : String) : RemoteState :=
  { st with varValue := fun e2 k2 =>
      if e2 = env ∧ k2 = key then some value else st.varValue e2 k2 }

/-- Modelled from the spec: the remote GitHub API for one repository `repo`
(spec section 6): repository lookup answers the identity (404 for any other
repository); environment PUT creates-or-no-ops; variable GET answers the
value or 404; variable POST creates (409 when already present); variable
PATCH updates (404 when absent); DELETE removes; anything else is 404. -/
def githubServer (repo : Repository) : Responder RemoteState := fun st req =>
  match req.method, req.endpoint with
  | Method.GET, Endpoint.repoDetails owner name =>
      if owner = repo.owner.login ∧ name = repo.name then
        ({ status := 200, body := RespBody.repoJson repo }, st)
      else ({ status := 404, body := RespBody.empty }, st)
  | Method.GET, Endpoint.envCollection _ _ =>
      ({ status := 200, body := RespBody.envsJson st.envs }, st)
  | Method.PUT, Endpoint.envResource _ _ env =>
      ({ status := 200, body := RespBody.empty },
       { st with envs := insertEnvName env st.envs })
  | Method.DELETE, Endpoint.envResource _ _ env =>
      ({ status := 204, body := RespBody.empty },
       { st with envs := st.envs.filter (fun x => x ≠ env) })
  | Method.GET, Endpoint.varResource _ env key =>
      (match st.varValue env key with
       | some v => ({ status := 200, body := RespBody.varJson v }, st)
       | none => ({ status := 404, body := RespBody.empty }, st))
  | Method.POST, Endpoint.varCollection _ env =>
      (match req.body with
       | some (ReqBody.nameValue k v) =>
           (match st.varValue env k with
            | some _ => ({ status := 409, body := RespBody.empty }, st)
            | none => ({ status := 201, body := RespBody.empty }, setVar st env k v))
       | _ => ({ status := 422, body := RespBody.empty }, st))
  | Method.PATCH, Endpoint.varResource _ env key =>
      (match req.body with
       | some (ReqBody.valueOnly v) =>
           (match st.varValue env key with
            | some _ => ({ status := 204, body := RespBody.empty }, setVar st env key v)
            | none => ({ status := 404, body := RespBody.empty }, st))
       | _ => ({ status := 422, body := RespBody.empty }, st))
  | Method.DELETE, Endpoint.varResource _ env key =>
      ({ status := 204, body := RespBody.empty },
       { st with varValue := fun e2 k2 =>
           if e2 = env ∧ k2 = key then none else st.varValue e2 k2 })
  | _, _ => ({ status := 404, body := RespBody.empty }, st)

/-- The pure effect of syncing one environment's variable list. -/
def applyVars : RemoteState → String → EnvironmentVars → RemoteState
  | st, _, [] => st
  | st, e, (k, v) :: rest => applyVars (setVar st e k v) e rest

/-- The pure effect of syncing a whole document: for each environment in
order, create it, then write its variables. -/
def applyConfig : RemoteState → ConfigDocument → RemoteState
  | st, [] => st
  | st, (e, vars) :: rest =>
      applyConfig (applyVars { st with envs := insertEnvName e st.envs } e vars) rest

/-- Left-biased choice on optional values. -/
def orO : Option String → Option String → Option String
  | some v, _ => some v
  | none, b => b

/-- The last value a variable list writes to key `k`, if any (later entries
override earlier ones). -/
def lastWriteVars : EnvironmentVars → String → Option String
  | [], _ => none
  | (k0, v0) :: rest, k =>
      match lastWriteVars rest k with
      | some v => some v
      | none => if k0 = k then some v0 else none

/-- The last value a document writes to `(e, k)`, if any. -/
def lastWriteCfg : ConfigDocument → String → String → Option String
  | [], _, _ => none
  | (e0, vars) :: rest, e, k =>
      match lastWriteCfg rest e k with
      | some v => some v
      | none => if e0 = e then lastWriteVars vars k else none

/-- The environment list after a document's environment PUTs. -/
def envNamesAfter : ConfigDocument → List String → List String
  | [], l => l
  | (e, _) :: rest, l => envNamesAfter rest (insertEnvName e l)

/-- The remote state `sync_environments` leaves behind when run against
`githubServer repo`, computed purely from its inputs. -/
def syncModel (repo : Repository) (st : RemoteState) (config : ConfigDocument)
    (options : Args) : RemoteState :=
  match splitOnceSlash options.repository with
  | none => st
  | some (own, rest) =>
      if own = repo.owner.login ∧ rest = repo.name then
        match options.environment with
        | some env =>
            match configGet config env with
            | none => st
            | some vars => applyVars { st with envs := insertEnvName env st.envs } env vars
        | none => applyConfig st config
      else st

/-!
### Concrete fixtures

A sample repository, client and responders used to evaluate the
development on closed inputs.
-/

/-- A sample repository identity. -/
def repo0 : Repository :=
  { id := 7, name := "r", owner := { login := "o" } }

/-- A sample client addressing `repo0`. -/
def client0 : GithubEnvClient :=
  { token := "t", username := "u", repository := repo0 }

/-- A responder that answers every request with the same fixed response. -/
def constRemote (resp : HttpResponse) : Responder Unit :=
  fun u _ => (resp, u)

/-- A stateless responder mimicking a repository with no variables: the
repository lookup succeeds with `repo0`, every other GET is 404, every
write succeeds. -/
def serverish : Responder Unit :=
  fun u r =>
    (match r.method, r.endpoint with
     | Method.GET, Endpoint.repoDetails _ _ =>
         { status := 200, body := RespBody.repoJson repo0 }
     | Method.GET, _ => { status := 404, body := RespBody.empty }
     | _, _ => { status := 200, body := RespBody.empty },
     u)

/-!
### Unfolding lemmas

Each client operation issues exactly one request; these lemmas rewrite an
operation applied to an arbitrary responder into its response-driven normal
form.
-/

lemma get_repository_details_eq {σ : Type} (remote : Responder σ) (s : σ)
    (username token owner name : String) :
    get_repository_details remote s username token owner name =
      (let resp := (remote s (repoDetailsRequest username token owner name)).1
       if isErrorStatus resp.status then
         Except.error (GhError.repoLookup resp.status)
       else
         match decodeRepository resp.body with
         | some repository => Except.ok repository
         | none => Except.error GhError.decodeError,
       (remote s (repoDetailsRequest username token owner name)).2,
       [repoDetailsRequest username token owner name]) := by
  unfold get_repository_details
  rcases h : remote s (repoDetailsRequest username token owner name) with ⟨resp, s1⟩
  simp only [h]
  split <;> (try split) <;> rfl

lemma upsert_environment_eq {σ : Type} (c : GithubEnvClient) (remote : Responder σ)
    (s : σ) (e : String) :
    upsert_environment c remote s e =
      (let resp := (remote s (upsertEnvironmentRequest c e)).1
       if isErrorStatus resp.status then
         Except.error (GhError.opError "upsert_environment" resp.status)
       else Except.ok (),
       (remote s (upsertEnvironmentRequest c e)).2,
       [upsertEnvironmentRequest c e]) := by
  unfold upsert_environment
  rcases h : remote s (upsertEnvironmentRequest c e) with ⟨resp, s1⟩
  simp only [h]
  split <;> rfl

lemma create_environment_variable_eq {σ : Type} (c : GithubEnvClient)
    (remote : Responder σ) (s : σ) (e k v : String) :
    create_environment_variable c remote s e k v =
      (let resp := (remote s (createVariableRequest c e k v)).1
       if isErrorStatus resp.status then
         Except.error (GhError.opError "create_environment_variable" resp.status)
       else Except.ok (),
       (remote s (createVariableRequest c e k v)).2,
       [createVariableRequest c e k v]) := by
  unfold create_environment_variable
  rcases h : remote s (createVariableRequest c e k v) with ⟨resp, s1⟩
  simp only [h]
  split <;> rfl

lemma update_environment_variable_eq {σ : Type} (c : GithubEnvClient)
    (remote : Responder σ) (s : σ) (e k v : String) :
    update_environment_variable c remote s e k v =
      (let resp := (remote s (updateVariableRequest c e k v)).1
       if isErrorStatus resp.status then
         Except.error (GhError.opError "update_environment_variable" resp.status)
       else Except.ok (),
       (remote s (updateVariableRequest c e k v)).2,
       [updateVariableRequest c e k v]) := by
  unfold update_environment_variable
  rcases h : remote s (updateVariableRequest c e k v) with ⟨resp, s1⟩
  simp only [h]
  split <;> rfl

lemma get_environment_variable_eq {σ : Type} (c : GithubEnvClient)
    (remote : Responder σ) (s : σ) (e k : String) :
    get_environment_variable c remote s e k =
      (let resp := (remote s (getVariableRequest c e k)).1
       if isErrorStatus resp.status then
         if resp.status = 404 then Except.ok none
         else Except.error (GhError.opError "get_environment_variable" resp.status)
       else
         match decodeVariableValue resp.body with
         | some v => Except.ok (some v)
         | none => Except.error GhError.decodeError,
       (remote s (getVariableRequest c e k)).2,
       [getVariableRequest c e k]) := by
  unfold get_environment_variable
  rcases h : remote s (getVariableRequest c e k) with ⟨resp, s1⟩
  simp only [h]
  split <;> (try split) <;> rfl

/-- The three possible request traces of `upsert_environment_variable`: the
existence probe alone (when the get errored or its body did not decode), or
the probe followed by exactly one PATCH (variable present) or exactly one
POST (variable absent). -/
lemma upsert_variable_trace_shape {σ : Type} (c : GithubEnvClient)
    (remote : Responder σ) (s : σ) (e k v : String) :
    (upsert_environment_variable c remote s e k v).2.2 = [getVariableRequest c e k] ∨
    (upsert_environment_variable c remote s e k v).2.2 =
      [getVariableRequest c e k, updateVariableRequest c e k v] ∨
    (upsert_environment_variable c remote s e k v).2.2 =
      [getVariableRequest c e k, createVariableRequest c e k v] := by
  have h404t : isErrorStatus 404 = true := by decide
  unfold upsert_environment_variable
  simp only [get_environment_variable_eq, update_environment_variable_eq,
    create_environment_variable_eq]
  rcases h : remote s (getVariableRequest c e k) with ⟨resp, s1⟩
  simp only [h]
  by_cases he : isErrorStatus resp.status = true
  · by_cases h404 : resp.status = 404
    · right; right
      simp [he, h404, h404t]
    · left
      simp [he, h404]
  · cases hd : decodeVariableValue resp.body with
    | none =>
        left
        simp [he, hd]
    | some w =>
        right; left
        simp [he, hd]

/-- When the existence probe reports the variable present (non-error status,
decodable body with value `w`), the upsert issues the probe then exactly one
update PATCH carrying the given value, and its result is the update's
result. -/
lemma upsert_variable_present {σ : Type} (c : GithubEnvClient)
    (remote : Responder σ) (s : σ) (e k v w : String)
    (hs : isErrorStatus ((remote s (getVariableRequest c e k)).1.status) = false)
    (hd : decodeVariableValue ((remote s (getVariableRequest c e k)).1.body) = some w) :
    upsert_environment_variable c remote s e k v =
      (let s1 := (remote s (getVariableRequest c e k)).2
       ((update_environment_variable c remote s1 e k v).1,
        (update_environment_variable c remote s1 e k v).2.1,
        [getVariableRequest c e k, updateVariableRequest c e k v])) := by
  unfold upsert_environment_variable
  simp only [get_environment_variable_eq, update_environment_variable_eq]
  rcases h : remote s (getVariableRequest c e k) with ⟨resp, s1⟩
  simp only [h] at hs hd ⊢
  simp only [hs, hd, Bool.false_eq_true, if_false]
  split <;> simp_all

/-- When the existence probe reports 404 (absent), the upsert issues the
probe then exactly one create POST carrying the given key and value, and its
result is the create's result. -/
lemma upsert_variable_absent {σ : Type} (c : GithubEnvClient)
    (remote : Responder σ) (s : σ) (e k v : String)
    (hs : ((remote s (getVariableRequest c e k)).1.status) = 404) :
    upsert_environment_variable c remote s e k v =
      (let s1 := (remote s (getVariableRequest c e k)).2
       ((create_environment_variable c remote s1 e k v).1,
        (create_environment_variable c remote s1 e k v).2.1,
        [getVariableRequest c e k, createVariableRequest c e k v])) := by
  unfold upsert_environment_variable
  simp only [get_environment_variable_eq, create_environment_variable_eq]
  rcases h : remote s (getVariableRequest c e k) with ⟨resp, s1⟩
  simp only [h] at hs ⊢
  have he : isErrorStatus resp.status = true := by
    rw [hs]; decide
  simp only [hs, he, if_true, if_pos]
  split <;> simp_all

lemma isGetVarFor_getVariableRequest (c : GithubEnvClient) (e k : String) :
    isGetVarFor e k (getVariableRequest c e k) = true := by
  simp [isGetVarFor, getVariableRequest]

lemma isGetVarFor_updateVariableRequest (c : GithubEnvClient) (e k e2 k2 v : String) :
    isGetVarFor e2 k2 (updateVariableRequest c e k v) = false := by
  simp [isGetVarFor, updateVariableRequest]

lemma isGetVarFor_createVariableRequest (c : GithubEnvClient) (e k e2 k2 v : String) :
    isGetVarFor e2 k2 (createVariableRequest c e k v) = false := by
  simp [isGetVarFor, createVariableRequest]

/-- **C1.** `upsert_environment_variable` first issues the existence probe
(the trace starts with the GET and contains it exactly once); if the probe
reports the variable present it issues exactly one update PATCH and no
create, if the probe reports 404 (absent) exactly one create POST and no
update, and in both cases the issued write carries the given key and value
unchanged (`updateVariableRequest`/`createVariableRequest` embed them
verbatim). -/
theorem upsert_variable_get_then_single_write {σ : Type} (c : GithubEnvClient)
    (remote : Responder σ) (s : σ) (e k v : String) :
    ((upsert_environment_variable c remote s e k v).2.2).head? =
        some (getVariableRequest c e k) ∧
    ((upsert_environment_variable c remote s e k v).2.2).countP (isGetVarFor e k) = 1 ∧
    (isErrorStatus ((remote s (getVariableRequest c e k)).1.status) = false →
     ∀ w, decodeVariableValue ((remote s (getVariableRequest c e k)).1.body) = some w →
       (upsert_environment_variable c remote s e k v).2.2 =
         [getVariableRequest c e k, updateVariableRequest c e k v]) ∧
    ((remote s (getVariableRequest c e k)).1.status = 404 →
       (upsert_environment_variable c remote s e k v).2.2 =
         [getVariableRequest c e k, createVariableRequest c e k v]) := by
  refine ⟨?_, ?_, ?_, ?_⟩
  · rcases upsert_variable_trace_shape c remote s e k v with h | h | h <;> simp [h]
  · rcases upsert_variable_trace_shape c remote s e k v with h | h | h <;>
      simp [h, List.countP_cons, isGetVarFor_getVariableRequest,
        isGetVarFor_updateVariableRequest, isGetVarFor_createVariableRequest]
  · intro hs w hd
    rw [upsert_variable_present c remote s e k v w hs hd]
  · intro hs
    rw [upsert_variable_absent c remote s e k v hs]

/-- Witness for C1: against a remote holding value "old" for `K`, the upsert
of `K := V` issues the probe and exactly one update carrying `V`. -/
theorem upsert_variable_get_then_single_write_witness :
    (isErrorStatus ((constRemote { status := 200, body := RespBody.varJson "old" } ()
        (getVariableRequest client0 "prod" "K")).1.status) = false ∧
     decodeVariableValue ((constRemote { status := 200, body := RespBody.varJson "old" } ()
        (getVariableRequest client0 "prod" "K")).1.body) = some "old") ∧
    (upsert_environment_variable client0
        (constRemote { status := 200, body := RespBody.varJson "old" }) () "prod" "K" "V").2.2 =
      [getVariableRequest client0 "prod" "K",
       updateVariableRequest client0 "prod" "K" "V"] :=
  ⟨⟨by decide, by decide⟩,
   (upsert_variable_get_then_single_write client0
      (constRemote { status := 200, body := RespBody.varJson "old" }) () "prod" "K" "V").2.2.1
     (by decide) "old" (by decide)⟩

/-- **C2 counterexample.** The claim says every non-2xx status other than 404
yields an error, but `error_for_status` only errors on 400-599: a 300
response whose body decodes as a variable makes `get_environment_variable`
return the value as present, not an error. -/
theorem get_variable_non2xx_not_always_error :
    ¬ (200 ≤ 300 ∧ 300 ≤ 299) ∧ (300 : Nat) ≠ 404 ∧
    ((constRemote { status := 300, body := RespBody.varJson "x" } ()
        (getVariableRequest client0 "prod" "K")).1.status = 300) ∧
    (get_environment_variable client0
        (constRemote { status := 300, body := RespBody.varJson "x" }) () "prod" "K").1 =
      Except.ok (some "x") := by
  decide

/-- **C2 (amended).** `get_environment_variable` returns the explicit absent
result exactly when the remote responds 404; any 4xx/5xx status other than
404 yields an error carrying that status; and any status outside 400-599
(2xx, but also 1xx/3xx, which `error_for_status` treats the same as
success) yields the decoded value as present whenever the body decodes. -/
theorem get_variable_status_mapping {σ : Type} (c : GithubEnvClient)
    (remote : Responder σ) (s : σ) (e k : String) :
    ((get_environment_variable c remote s e k).1 = Except.ok none ↔
        (remote s (getVariableRequest c e k)).1.status = 404) ∧
    (isErrorStatus ((remote s (getVariableRequest c e k)).1.status) = true →
     (remote s (getVariableRequest c e k)).1.status ≠ 404 →
       (get_environment_variable c remote s e k).1 =
         Except.error (GhError.opError "get_environment_variable"
           ((remote s (getVariableRequest c e k)).1.status))) ∧
    (isErrorStatus ((remote s (getVariableRequest c e k)).1.status) = false →
     ∀ w, decodeVariableValue ((remote s (getVariableRequest c e k)).1.body) = some w →
       (get_environment_variable c remote s e k).1 = Except.ok (some w)) := by
  rw [get_environment_variable_eq]
  rcases h : remote s (getVariableRequest c e k) with ⟨resp, s1⟩
  simp only [h]
  refine ⟨?_, ?_, ?_⟩
  · by_cases he : isErrorStatus resp.status = true
    · by_cases h404 : resp.status = 404
      · simp only [he, h404, if_true, if_pos]
        simp
        intro hx
        exact absurd hx (by decide)
      · simp [he, h404]
    · have h404 : resp.status ≠ 404 := by
        intro hx
        rw [hx] at he
        exact he (by decide)
      cases hd : decodeVariableValue resp.body with
      | none => simp [he, hd, h404]
      | some w => simp [he, hd, h404]
  · intro he h404
    simp [he, h404]
  · intro he w hd
    simp [he, hd]

/-- Witness for C2: a 500 response on the probe is an error carrying the
status. -/
theorem get_variable_status_mapping_witness :
    (isErrorStatus ((constRemote { status := 500, body := RespBody.rawText "oops" } ()
        (getVariableRequest client0 "prod" "K")).1.status) = true ∧
     ((constRemote { status := 500, body := RespBody.rawText "oops" } ()
        (getVariableRequest client0 "prod" "K")).1.status ≠ 404)) ∧
    (get_environment_variable client0
        (constRemote { status := 500, body := RespBody.rawText "oops" }) () "prod" "K").1 =
      Except.error (GhError.opError "get_environment_variable" 500) :=
  ⟨⟨by decide, by decide⟩,
   (get_variable_status_mapping client0
      (constRemote { status := 500, body := RespBody.rawText "oops" }) () "prod" "K").2.1
     (by decide) (by decide)⟩

/-- **C6 counterexample.** With the remote already holding the desired value
("1" for `X`), the sync still issues an update PATCH for that variable: the
code never compares the fetched value with the desired one, so the applied
operation set is not minimal. -/
theorem equal_value_still_updates :
    decodeVariableValue ((constRemote { status := 200, body := RespBody.varJson "1" } ()
        (getVariableRequest client0 "prod" "X")).1.body) = some "1" ∧
    (upsert_environment_variable client0
        (constRemote { status := 200, body := RespBody.varJson "1" }) () "prod" "X" "1").2.2 =
      [getVariableRequest client0 "prod" "X",
       updateVariableRequest client0 "prod" "X" "1"] ∧
    ((upsert_environment_variable client0
        (constRemote { status := 200, body := RespBody.varJson "1" }) () "prod" "X" "1").2.2).countP
        (isUpdateVarFor "prod" "X" "1") = 1 := by
  decide

/-- **C6 (amended).** The reconciliation is not value-minimal: whenever the
probe returns the variable present with exactly the desired value, the
upsert still issues exactly one update PATCH (and no create); minimality
holds only in the weaker sense of one probe plus at most one write per
variable. -/
theorem upsert_variable_writes_even_when_equal {σ : Type} (c : GithubEnvClient)
    (remote : Responder σ) (s : σ) (e k v : String)
    (h : (remote s (getVariableRequest c e k)).1 =
      { status := 200, body := RespBody.varJson v }) :
    (upsert_environment_variable c remote s e k v).2.2 =
      [getVariableRequest c e k, updateVariableRequest c e k v] ∧
    ((upsert_environment_variable c remote s e k v).2.2).length ≤ 2 := by
  have hs : isErrorStatus ((remote s (getVariableRequest c e k)).1.status) = false := by
    rw [h]
    exact rfl
  have hd : decodeVariableValue ((remote s (getVariableRequest c e k)).1.body) = some v := by
    rw [h]
    exact rfl
  rw [upsert_variable_present c remote s e k v v hs hd]
  simp

/-- Witness for C6: remote value "1", desired value "1", the update is still
sent. -/
theorem upsert_variable_writes_even_when_equal_witness :
    ((constRemote { status := 200, body := RespBody.varJson "1" } ()
        (getVariableRequest client0 "prod" "X")).1 =
      { status := 200, body := RespBody.varJson "1" }) ∧
    (upsert_environment_variable client0
        (constRemote { status := 200, body := RespBody.varJson "1" }) () "prod" "X" "1").2.2 =
      [getVariableRequest client0 "prod" "X",
       updateVariableRequest client0 "prod" "X" "1"] :=
  ⟨by decide,
   (upsert_variable_writes_even_when_equal client0
      (constRemote { status := 200, body := RespBody.varJson "1" }) () "prod" "X" "1"
      (by decide)).1⟩

lemma list_environments_trace {σ : Type} (c : GithubEnvClient)
    (remote : Responder σ) (s : σ) :
    (list_environments c remote s).2.2 = [listEnvironmentsRequest c] := by
  unfold list_environments
  rcases h : remote s (listEnvironmentsRequest c) with ⟨resp, s1⟩
  simp only [h]
  split <;> (try split) <;> rfl

lemma delete_environment_trace {σ : Type} (c : GithubEnvClient)
    (remote : Responder σ) (s : σ) (e : String) :
    (delete_environment c remote s e).2.2 = [deleteEnvironmentRequest c e] := by
  unfold delete_environment
  rcases h : remote s (deleteEnvironmentRequest c e) with ⟨resp, s1⟩
  simp only [h]
  split <;> rfl

lemma delete_environment_variable_trace {σ : Type} (c : GithubEnvClient)
    (remote : Responder σ) (s : σ) (e k : String) :
    (delete_environment_variable c remote s e k).2.2 = [deleteVariableRequest c e k] := by
  unfold delete_environment_variable
  rcases h : remote s (deleteVariableRequest c e k) with ⟨resp, s1⟩
  simp only [h]
  split <;> rfl

lemma hasFourHeaders_of_withEnv (c : GithubEnvClient) (r : Request)
    (h : r.headers = withEnvClientHeaders c) : hasFourHeaders c r := by
  rw [hasFourHeaders, h]
  refine ⟨?_, ?_, ?_, ?_⟩ <;> simp [withEnvClientHeaders]

/-- **C7 counterexample.** The construction-time repository lookup request
carries no Accept header at all (it attaches only bearer auth, User-Agent
and the API version), so it does not carry all four headers the claim
requires of every outgoing request. -/
theorem repo_lookup_missing_accept_header :
    (get_repository_details serverish () "u" "t" "o" "r").2.2 =
      [repoDetailsRequest "u" "t" "o" "r"] ∧
    ("Accept", "application/vnd.github.v3+json") ∉
      (repoDetailsRequest "u" "t" "o" "r").headers ∧
    ((repoDetailsRequest "u" "t" "o" "r").headers.all
      (fun h => !(h.fst == "Accept"))) = true := by
  decide

/-- **C7 (amended).** Every request issued through a constructed client (all
eight client operations go through `with_env_client`) carries the four
headers: bearer auth with the stored token, User-Agent set to the stored
identity, the GitHub JSON Accept media type, and the dated API version
2022-11-28.  The construction-time repository lookup is the exception: it
carries bearer auth, User-Agent and the API version, but no Accept header. -/
theorem client_requests_header_discipline {σ : Type} (c : GithubEnvClient)
    (remote : Responder σ) (s : σ) (e k v username token owner name : String) :
    (∀ r ∈ (list_environments c remote s).2.2, hasFourHeaders c r) ∧
    (∀ r ∈ (upsert_environment c remote s e).2.2, hasFourHeaders c r) ∧
    (∀ r ∈ (delete_environment c remote s e).2.2, hasFourHeaders c r) ∧
    (∀ r ∈ (create_environment_variable c remote s e k v).2.2, hasFourHeaders c r) ∧
    (∀ r ∈ (get_environment_variable c remote s e k).2.2, hasFourHeaders c r) ∧
    (∀ r ∈ (update_environment_variable c remote s e k v).2.2, hasFourHeaders c r) ∧
    (∀ r ∈ (upsert_environment_variable c remote s e k v).2.2, hasFourHeaders c r) ∧
    (∀ r ∈ (delete_environment_variable c remote s e k).2.2, hasFourHeaders c r) ∧
    ((repoDetailsRequest username token owner name).headers =
      repoLookupHeaders username token) ∧
    (∀ h ∈ (repoDetailsRequest username token owner name).headers, h.1 ≠ "Accept") := by
  refine ⟨?_, ?_, ?_, ?_, ?_, ?_, ?_, ?_, rfl, ?_⟩
  · rw [list_environments_trace]
    intro r hr
    rw [List.mem_singleton] at hr
    exact hasFourHeaders_of_withEnv c r (by rw [hr]; rfl)
  · rw [upsert_environment_eq]
    intro r hr
    rw [List.mem_singleton] at hr
    exact hasFourHeaders_of_withEnv c r (by rw [hr]; rfl)
  · rw [delete_environment_trace]
    intro r hr
    rw [List.mem_singleton] at hr
    exact hasFourHeaders_of_withEnv c r (by rw [hr]; rfl)
  · rw [create_environment_variable_eq]
    intro r hr
    rw [List.mem_singleton] at hr
    exact hasFourHeaders_of_withEnv c r (by rw [hr]; rfl)
  · rw [get_environment_variable_eq]
    intro r hr
    rw [List.mem_singleton] at hr
    exact hasFourHeaders_of_withEnv c r (by rw [hr]; rfl)
  · rw [update_environment_variable_eq]
    intro r hr
    rw [List.mem_singleton] at hr
    exact hasFourHeaders_of_withEnv c r (by rw [hr]; rfl)
  · intro r hr
    rcases upsert_variable_trace_shape c remote s e k v with h | h | h
    · rw [h, List.mem_singleton] at hr
      exact hasFourHeaders_of_withEnv c r (by rw [hr]; rfl)
    · rw [h] at hr
      simp only [List.mem_cons, List.mem_singleton, List.not_mem_nil, or_false] at hr
      rcases hr with hr | hr
      · exact hasFourHeaders_of_withEnv c r (by rw [hr]; rfl)
      · exact hasFourHeaders_of_withEnv c r (by rw [hr]; rfl)
    · rw [h] at hr
      simp only [List.mem_cons, List.mem_singleton, List.not_mem_nil, or_false] at hr
      rcases hr with hr | hr
      · exact hasFourHeaders_of_withEnv c r (by rw [hr]; rfl)
      · exact hasFourHeaders_of_withEnv c r (by rw [hr]; rfl)
  · rw [delete_environment_variable_trace]
    intro r hr
    rw [List.mem_singleton] at hr
    exact hasFourHeaders_of_withEnv c r (by rw [hr]; rfl)
  · intro h hh
    rw [repoDetailsRequest] at hh
    simp only [repoLookupHeaders, bearerAuthHeader, List.mem_cons,
      List.mem_singleton, List.not_mem_nil, or_false] at hh
    rcases hh with hh | hh | hh
    · rw [hh]
      show "Authorization" ≠ "Accept"
      decide
    · rw [hh]
      show "User-Agent" ≠ "Accept"
      decide
    · rw [hh]
      show "X-Github-Api-Version" ≠ "Accept"
      decide

/-- Witness for C7: the probe request of a concrete get operation carries all
four headers. -/
theorem client_requests_header_discipline_witness :
    (getVariableRequest client0 "prod" "K") ∈
      (get_environment_variable client0 serverish () "prod" "K").2.2 ∧
    hasFourHeaders client0 (getVariableRequest client0 "prod" "K") :=
  ⟨by decide,
   (client_requests_header_discipline client0 serverish () "prod" "K" "V"
      "u" "t" "o" "r").2.2.2.2.1 (getVariableRequest client0 "prod" "K") (by decide)⟩

/-- `GithubEnvClient::init` in response-driven normal form. -/
lemma GithubEnvClient.init_eq {σ : Type} (remote : Responder σ) (s : σ)
    (username token owner name : String) :
    GithubEnvClient.init remote s username token owner name =
      (let resp := (remote s (repoDetailsRequest username token owner name)).1
       if isErrorStatus resp.status then
         Except.error (GhError.repoLookup resp.status)
       else
         match decodeRepository resp.body with
         | some repository =>
             Except.ok { username := username, token := token, repository := repository }
         | none => Except.error GhError.decodeError,
       (remote s (repoDetailsRequest username token owner name)).2,
       [repoDetailsRequest username token owner name]) := by
  unfold GithubEnvClient.init
  rw [get_repository_details_eq]
  rcases h : remote s (repoDetailsRequest username token owner name) with ⟨resp, s1⟩
  simp only [h]
  by_cases he : isErrorStatus resp.status = true
  · simp [he]
  · simp only [he, Bool.false_eq_true, if_false]
    cases hd : decodeRepository resp.body <;> simp [hd]

/-- **C8 counterexample.** Two failed lookups that differ only in the
response body produce identical error values (`error_for_status` discards
the body before the error is built), so the repository-lookup error cannot
carry the response body the claim says it does. -/
theorem repo_lookup_error_drops_body :
    (GithubEnvClient.init
        (constRemote { status := 500, body := RespBody.rawText "server exploded" })
        () "u" "t" "o" "r").1 =
      (GithubEnvClient.init
        (constRemote { status := 500, body := RespBody.rawText "a different body" })
        () "u" "t" "o" "r").1 ∧
    (GithubEnvClient.init
        (constRemote { status := 500, body := RespBody.rawText "server exploded" })
        () "u" "t" "o" "r").1 =
      Except.error (GhError.repoLookup 500) := by
  decide

/-- **C8 (amended).** Client construction issues exactly one GET, to the
repository endpoint; on a 4xx/5xx status it fails with a repository-lookup
error carrying the HTTP status (the response body is discarded), so no
client value exists after a failed lookup; on any other status it decodes
the body and stores the repository together with the given username and
token. -/
theorem init_single_lookup_behavior {σ : Type} (remote : Responder σ) (s : σ)
    (username token owner name : String) :
    (GithubEnvClient.init remote s username token owner name).2.2 =
      [repoDetailsRequest username token owner name] ∧
    (isErrorStatus ((remote s (repoDetailsRequest username token owner name)).1.status)
        = true →
      (GithubEnvClient.init remote s username token owner name).1 =
        Except.error (GhError.repoLookup
          ((remote s (repoDetailsRequest username token owner name)).1.status))) ∧
    (isErrorStatus ((remote s (repoDetailsRequest username token owner name)).1.status)
        = false →
      ∀ r, decodeRepository ((remote s (repoDetailsRequest username token owner name)).1.body)
          = some r →
        (GithubEnvClient.init remote s username token owner name).1 =
          Except.ok { username := username, token := token, repository := r }) := by
  rw [GithubEnvClient.init_eq]
  refine ⟨rfl, ?_, ?_⟩
  · intro he
    simp [he]
  · intro he r hd
    simp [he, hd]

/-- Witness for C8: a successful lookup stores the decoded repository. -/
theorem init_single_lookup_behavior_witness :
    (isErrorStatus ((serverish () (repoDetailsRequest "u" "t" "o" "r")).1.status) = false ∧
     decodeRepository ((serverish () (repoDetailsRequest "u" "t" "o" "r")).1.body) =
       some repo0) ∧
    (GithubEnvClient.init serverish () "u" "t" "o" "r").1 =
      Except.ok { username := "u", token := "t", repository := repo0 } :=
  ⟨⟨by decide, by decide⟩,
   (init_single_lookup_behavior serverish () "u" "t" "o" "r").2.2 (by decide) repo0
     (by decide)⟩

/-- **C3 counterexample.** With a selector naming an environment absent from
the document, the run does fail, but only after the construction-time
repository lookup has been sent: the request trace is nonempty (it contains
the lookup), contradicting "before any network call is made". -/
theorem selector_missing_lookup_still_sent :
    (sync_environments serverish () ([] : ConfigDocument)
        { repository := "o/r", environment := some "prod", token := "t",
          username := some "u" }).1 =
      Except.error (SyncError.panicExpect
        "Expected the --environment argument to be one of the environments defined in the config document") ∧
    (sync_environments serverish () ([] : ConfigDocument)
        { repository := "o/r", environment := some "prod", token := "t",
          username := some "u" }).2.2 =
      [repoDetailsRequest "u" "t" "o" "r"] ∧
    (sync_environments serverish () ([] : ConfigDocument)
        { repository := "o/r", environment := some "prod", token := "t",
          username := some "u" }).2.2 ≠ [] := by
  refine ⟨by decide, by decide, by decide⟩

/-- **C3 (amended).** With a selector naming an environment that is not a key
of the document, the run fails, and the only network call possibly issued is
the client-construction repository lookup: every request in the trace is a
repository-details GET, so no environment or variable operation is issued
for any environment. -/
theorem selector_missing_aborts_after_lookup {σ : Type} (remote : Responder σ)
    (s : σ) (config : ConfigDocument) (options : Args) (env : String)
    (hsel : options.environment = some env)
    (hmiss : configGet config env = none) :
    (∃ err, (sync_environments remote s config options).1 = Except.error err) ∧
    ((sync_environments remote s config options).2.2).all isRepoLookup = true := by
  unfold sync_environments
  cases hsp : splitOnceSlash options.repository with
  | none => exact ⟨⟨_, rfl⟩, rfl⟩
  | some p =>
      rcases p with ⟨own, rest⟩
      dsimp only
      rw [GithubEnvClient.init_eq]
      set usr := (match options.username with | some u => u | none => own) with husr
      dsimp only
      by_cases he : isErrorStatus
          ((remote s (repoDetailsRequest usr options.token own rest)).1.status) = true
      · simp only [he, if_true, if_pos]
        refine ⟨⟨_, rfl⟩, ?_⟩
        simp [isRepoLookup, repoDetailsRequest]
      · simp only [he, Bool.false_eq_true, if_false]
        cases hd : decodeRepository
            ((remote s (repoDetailsRequest usr options.token own rest)).1.body) with
        | none =>
            simp only [hd]
            refine ⟨⟨_, rfl⟩, ?_⟩
            simp [isRepoLookup, repoDetailsRequest]
        | some repo =>
            simp only [hd, hsel, hmiss]
            refine ⟨⟨_, rfl⟩, ?_⟩
            simp [isRepoLookup, repoDetailsRequest]

/-- Witness for C3 (amended): concrete missing selector, failing run whose
only request is the lookup. -/
theorem selector_missing_aborts_after_lookup_witness :
    (({ repository := "o/r", environment := some "staging", token := "t",
        username := none } : Args).environment = some "staging" ∧
     configGet ([("prod", [("A", "1")])] : ConfigDocument) "staging" = none) ∧
    ((∃ err, (sync_environments serverish ()
        ([("prod", [("A", "1")])] : ConfigDocument)
        { repository := "o/r", environment := some "staging", token := "t",
          username := none }).1 = Except.error err) ∧
     ((sync_environments serverish () ([("prod", [("A", "1")])] : ConfigDocument)
        { repository := "o/r", environment := some "staging", token := "t",
          username := none }).2.2).all isRepoLookup = true) :=
  ⟨⟨by decide, by decide⟩,
   selector_missing_aborts_after_lookup serverish ()
     ([("prod", [("A", "1")])] : ConfigDocument)
     { repository := "o/r", environment := some "staging", token := "t",
       username := none } "staging" (by decide) (by decide)⟩

/-- **C9 counterexample.** A repository argument with two slashes is not a
parse failure: `split_once` splits at the first slash only, so `"a/b/c"`
parses as owner `"a"` and name `"b/c"`, the run proceeds to the remote
lookup (the trace is nonempty) and can even complete successfully. -/
theorem multi_slash_repository_not_rejected :
    splitOnceSlash "a/b/c" = some ("a", "b/c") ∧
    (sync_environments serverish () ([] : ConfigDocument)
        { repository := "a/b/c", environment := none, token := "t",
          username := some "u" }).1 = Except.ok () ∧
    (sync_environments serverish () ([] : ConfigDocument)
        { repository := "a/b/c", environment := none, token := "t",
          username := some "u" }).2.2 =
      [repoDetailsRequest "u" "t" "a" "b/c"] := by
  refine ⟨by decide, by decide, by decide⟩

/-- **C9 (amended).** A repository argument with no slash is a parse
precondition failure that aborts the run with no request issued; an argument
with at least one slash proceeds: it is split at the first slash into owner
and remainder (the remainder may itself contain slashes), and the first
request issued is the repository lookup for that pair. -/
theorem repository_split_at_first_slash {σ : Type} (remote : Responder σ)
    (s : σ) (config : ConfigDocument) (options : Args) :
    (splitOnceSlash options.repository = none →
      sync_environments remote s config options =
        (Except.error (SyncError.panicExpect
          "Expected <REPOSITORY> argument to be a owner/repo_name pair, e.g. rust-lang/rust-lang"),
         s, [])) ∧
    (∀ own rest, splitOnceSlash options.repository = some (own, rest) →
      ((sync_environments remote s config options).2.2).head? =
        some (repoDetailsRequest
          (match options.username with | some u => u | none => own)
          options.token own rest)) := by
  constructor
  · intro hz
    unfold sync_environments
    rw [hz]
  · intro own rest hsp
    unfold sync_environments
    rw [hsp]
    dsimp only
    rw [GithubEnvClient.init_eq]
    set usr := (match options.username with | some u => u | none => own) with husr
    dsimp only
    by_cases he : isErrorStatus
        ((remote s (repoDetailsRequest usr options.token own rest)).1.status) = true
    · simp only [he, if_true, if_pos]
      rfl
    · simp only [he, Bool.false_eq_true, if_false]
      cases hd : decodeRepository
          ((remote s (repoDetailsRequest usr options.token own rest)).1.body) with
      | none =>
          simp only [hd]
          rfl
      | some repo =>
          simp only [hd]
          cases hse : options.environment with
          | none =>
              dsimp only
              rcases hall : syncAllEnvironments
                  { username := usr, token := options.token, repository := repo } remote
                  ((remote s (repoDetailsRequest usr options.token own rest)).2) config
                with ⟨r2, s2, t2⟩
              simp only [hall]
              rcases r2 with e2 | u2 <;> simp [liftOutcome]
          | some env =>
              dsimp only
              cases hcg : configGet config env with
              | none => rfl
              | some env_dict =>
                  dsimp only
                  rcases hone : sync_one_environment
                      { username := usr, token := options.token, repository := repo } remote
                      ((remote s (repoDetailsRequest usr options.token own rest)).2) env env_dict
                    with ⟨r2, s2, t2⟩
                  simp only [hone]
                  rcases r2 with e2 | u2 <;> simp [liftOutcome]

/-- Witness for C9: a zero-slash argument aborts with an empty trace, and a
one-slash argument's first request is the lookup. -/
theorem repository_split_at_first_slash_witness :
    (splitOnceSlash "norepo" = none ∧
     sync_environments serverish () ([] : ConfigDocument)
        { repository := "norepo", environment := none, token := "t",
          username := none } =
       (Except.error (SyncError.panicExpect
         "Expected <REPOSITORY> argument to be a owner/repo_name pair, e.g. rust-lang/rust-lang"),
        (), [])) ∧
    (splitOnceSlash "o/r" = some ("o", "r") ∧
     ((sync_environments serverish () ([] : ConfigDocument)
        { repository := "o/r", environment := none, token := "t",
          username := none }).2.2).head? = some (repoDetailsRequest "o" "t" "o" "r")) :=
  ⟨⟨by decide,
    (repository_split_at_first_slash serverish () ([] : ConfigDocument)
      { repository := "norepo", environment := none, token := "t",
        username := none }).1 (by decide)⟩,
   ⟨by decide,
    (repository_split_at_first_slash serverish () ([] : ConfigDocument)
      { repository := "o/r", environment := none, token := "t",
        username := none }).2 "o" "r" (by decide)⟩⟩

/-- **C10.** An environment with an empty variable mapping is still created:
`sync_one_environment` issues exactly the one environment PUT, no variable
operation, and succeeds when the PUT succeeds; and a wholly empty document
with no selector syncs successfully: the all-environments loop issues
nothing, and the whole run's only request is the construction-time lookup. -/
theorem empty_sections_sync {σ : Type} (remote : Responder σ) (s : σ)
    (c : GithubEnvClient) (e : String) (options : Args) (own rest : String)
    (r : Repository) :
    (isErrorStatus ((remote s (upsertEnvironmentRequest c e)).1.status) = false →
      sync_one_environment c remote s e [] =
        (Except.ok (), (remote s (upsertEnvironmentRequest c e)).2,
         [upsertEnvironmentRequest c e])) ∧
    (syncAllEnvironments c remote s ([] : ConfigDocument) = (Except.ok (), s, [])) ∧
    (splitOnceSlash options.repository = some (own, rest) →
     options.environment = none →
     isErrorStatus ((remote s (repoDetailsRequest
        (match options.username with | some u => u | none => own)
        options.token own rest)).1.status) = false →
     decodeRepository ((remote s (repoDetailsRequest
        (match options.username with | some u => u | none => own)
        options.token own rest)).1.body) = some r →
      (sync_environments remote s ([] : ConfigDocument) options).1 = Except.ok () ∧
      (sync_environments remote s ([] : ConfigDocument) options).2.2 =
        [repoDetailsRequest
          (match options.username with | some u => u | none => own)
          options.token own rest]) := by
  refine ⟨?_, rfl, ?_⟩
  · intro hok
    unfold sync_one_environment
    rw [upsert_environment_eq]
    simp only [hok, Bool.false_eq_true, if_false]
    rfl
  · intro hsp hse hok hdec
    unfold sync_environments
    rw [hsp]
    dsimp only
    rw [GithubEnvClient.init_eq]
    set usr := (match options.username with | some u => u | none => own) with husr
    dsimp only
    simp only [hok, Bool.false_eq_true, if_false, hdec, hse]
    exact ⟨rfl, rfl⟩

/-- Witness for C10: an environment with no variables against a concrete
remote, and a concrete empty-document run. -/
theorem empty_sections_sync_witness :
    (isErrorStatus ((serverish () (upsertEnvironmentRequest client0 "prod")).1.status)
        = false ∧
     sync_one_environment client0 serverish () "prod" [] =
       (Except.ok (), (), [upsertEnvironmentRequest client0 "prod"])) ∧
    ((sync_environments serverish () ([] : ConfigDocument)
        { repository := "o/r", environment := none, token := "t",
          username := some "u" }).1 = Except.ok () ∧
     (sync_environments serverish () ([] : ConfigDocument)
        { repository := "o/r", environment := none, token := "t",
          username := some "u" }).2.2 = [repoDetailsRequest "u" "t" "o" "r"]) :=
  ⟨⟨by decide,
    (empty_sections_sync serverish () client0 "prod"
      { repository := "o/r", environment := none, token := "t", username := some "u" }
      "o" "r" repo0).1 (by decide)⟩,
   (empty_sections_sync serverish () client0 "prod"
      { repository := "o/r", environment := none, token := "t", username := some "u" }
      "o" "r" repo0).2.2 (by decide) (by decide) (by decide) (by decide)⟩

/-!
### Counting requests for the full-document sync
-/

lemma isGetVarFor_getVariableRequest_iff (c : GithubEnvClient) (e k e2 k2 : String) :
    isGetVarFor e2 k2 (getVariableRequest c e k) = (e == e2 && k == k2) := by
  simp [isGetVarFor, getVariableRequest]

lemma isGetVarFor_upsertEnvironmentRequest (c : GithubEnvClient) (e e2 k2 : String) :
    isGetVarFor e2 k2 (upsertEnvironmentRequest c e) = false := by
  simp [isGetVarFor, upsertEnvironmentRequest]

lemma isEnvPutFor_upsertEnvironmentRequest (c : GithubEnvClient) (e e2 : String) :
    isEnvPutFor e2 (upsertEnvironmentRequest c e) = (e == e2) := by
  simp [isEnvPutFor, upsertEnvironmentRequest]

lemma isVarCallFor_upsertEnvironmentRequest (c : GithubEnvClient) (e e2 : String) :
    isVarCallFor e2 (upsertEnvironmentRequest c e) = false := by
  simp [isVarCallFor, upsertEnvironmentRequest]

lemma upsert_variable_countP_get {σ : Type} (c : GithubEnvClient)
    (remote : Responder σ) (s : σ) (e k v e2 k2 : String) :
    ((upsert_environment_variable c remote s e k v).2.2).countP (isGetVarFor e2 k2) =
      if e == e2 && k == k2 then 1 else 0 := by
  rcases upsert_variable_trace_shape c remote s e k v with h | h | h <;>
    simp [h, List.countP_cons, isGetVarFor_getVariableRequest_iff,
      isGetVarFor_updateVariableRequest, isGetVarFor_createVariableRequest]

lemma upsert_variable_all_varCalls {σ : Type} (c : GithubEnvClient)
    (remote : Responder σ) (s : σ) (e k v : String) :
    ∀ r ∈ (upsert_environment_variable c remote s e k v).2.2,
      isVarCallFor e r = true := by
  intro r hr
  rcases upsert_variable_trace_shape c remote s e k v with h | h | h <;>
    rw [h] at hr <;>
    simp only [List.mem_cons, List.mem_singleton, List.not_mem_nil, or_false] at hr
  · rw [hr]
    simp [isVarCallFor, getVariableRequest]
  · rcases hr with hr | hr <;> rw [hr]
    · simp [isVarCallFor, getVariableRequest]
    · simp [isVarCallFor, updateVariableRequest]
  · rcases hr with hr | hr <;> rw [hr]
    · simp [isVarCallFor, getVariableRequest]
    · simp [isVarCallFor, createVariableRequest]

lemma isGetVarFor_of_varCall_ne {e e2 k : String} {r : Request}
    (h : isVarCallFor e r = true) (hne : e2 ≠ e) :
    isGetVarFor e2 k r = false := by
  unfold isVarCallFor at h
  unfold isGetVarFor
  cases hep : r.endpoint <;> rw [hep] at h <;> simp at h ⊢
  intro _ henv
  rw [h] at henv
  exact (hne henv.symm).elim

lemma isEnvPutFor_of_varCall {e e2 : String} {r : Request}
    (h : isVarCallFor e r = true) :
    isEnvPutFor e2 r = false := by
  unfold isVarCallFor at h
  unfold isEnvPutFor
  cases hep : r.endpoint <;> rw [hep] at h <;> simp at h ⊢

lemma isVarCallFor_of_varCall_ne {e e2 : String} {r : Request}
    (h : isVarCallFor e r = true) (hne : e2 ≠ e) :
    isVarCallFor e2 r = false := by
  unfold isVarCallFor at h ⊢
  cases hep : r.endpoint <;> rw [hep] at h <;> simp at h ⊢ <;>
    (intro henv; rw [h] at henv; exact hne henv.symm)

lemma syncVars_all_varCalls {σ : Type} (c : GithubEnvClient) (remote : Responder σ)
    (e : String) :
    ∀ (vars : EnvironmentVars) (s : σ), ∀ r ∈ (syncVars c remote e s vars).2.2,
      isVarCallFor e r = true := by
  intro vars
  induction vars with
  | nil => intro s r hr; simp [syncVars] at hr
  | cons p rest ih =>
      rcases p with ⟨k0, v0⟩
      intro s r hr
      simp only [syncVars] at hr
      rcases hu : upsert_environment_variable c remote s e k0 v0 with ⟨r1, s1, t1⟩
      rw [hu] at hr
      cases r1 with
      | error e1 =>
          dsimp at hr
          have := upsert_variable_all_varCalls c remote s e k0 v0 r
          rw [hu] at this
          exact this hr
      | ok u1 =>
          dsimp at hr
          rcases List.mem_append.mp hr with h1 | h2
          · have := upsert_variable_all_varCalls c remote s e k0 v0 r
            rw [hu] at this
            exact this h1
          · exact ih s1 r h2

lemma syncVars_countP_get {σ : Type} (c : GithubEnvClient) (remote : Responder σ)
    (e k : String) :
    ∀ (vars : EnvironmentVars) (s : σ),
      (syncVars c remote e s vars).1 = Except.ok () →
      ((syncVars c remote e s vars).2.2).countP (isGetVarFor e k) =
        vars.countP (fun p => p.1 == k) := by
  intro vars
  induction vars with
  | nil => intro s _; simp [syncVars]
  | cons p rest ih =>
      rcases p with ⟨k0, v0⟩
      intro s hok
      simp only [syncVars] at hok ⊢
      rcases hu : upsert_environment_variable c remote s e k0 v0 with ⟨r1, s1, t1⟩
      rw [hu] at hok
      cases r1 with
      | error e1 => simp at hok
      | ok u1 =>
          dsimp at hok ⊢
          rw [List.countP_append]
          have ht1 : t1.countP (isGetVarFor e k) = if (k0 == k) = true then 1 else 0 := by
            have hcnt := upsert_variable_countP_get c remote s e k0 v0 e k
            rw [hu] at hcnt
            simpa using hcnt
          rw [ht1, ih s1 hok, List.countP_cons]
          by_cases hk : (k0 == k) = true <;> simp [hk, Nat.add_comm]

lemma sync_one_ok_parts {σ : Type} (c : GithubEnvClient) (remote : Responder σ)
    (s : σ) (e : String) (vars : EnvironmentVars)
    (hok : (sync_one_environment c remote s e vars).1 = Except.ok ()) :
    (sync_one_environment c remote s e vars).2.2 =
      upsertEnvironmentRequest c e ::
        (syncVars c remote e ((remote s (upsertEnvironmentRequest c e)).2) vars).2.2 ∧
    (syncVars c remote e ((remote s (upsertEnvironmentRequest c e)).2) vars).1 =
      Except.ok () := by
  unfold sync_one_environment at hok ⊢
  rw [upsert_environment_eq] at hok ⊢
  by_cases hput : isErrorStatus ((remote s (upsertEnvironmentRequest c e)).1.status) = true
  · rw [if_pos hput] at hok
    exact absurd hok (by simp)
  · rw [if_neg hput] at hok ⊢
    dsimp at hok ⊢
    rcases hsv : syncVars c remote e ((remote s (upsertEnvironmentRequest c e)).2) vars
      with ⟨r2, s2, t2⟩
    rw [hsv] at hok
    dsimp at hok ⊢
    exact ⟨rfl, hok⟩

lemma syncAll_ok_parts {σ : Type} (c : GithubEnvClient) (remote : Responder σ)
    (s : σ) (e0 : String) (vars0 : EnvironmentVars) (rest : ConfigDocument)
    (hok : (syncAllEnvironments c remote s ((e0, vars0) :: rest)).1 = Except.ok ()) :
    (sync_one_environment c remote s e0 vars0).1 = Except.ok () ∧
    (syncAllEnvironments c remote ((sync_one_environment c remote s e0 vars0).2.1) rest).1
      = Except.ok () ∧
    (syncAllEnvironments c remote s ((e0, vars0) :: rest)).2.2 =
      (sync_one_environment c remote s e0 vars0).2.2 ++
        (syncAllEnvironments c remote ((sync_one_environment c remote s e0 vars0).2.1)
          rest).2.2 := by
  simp only [syncAllEnvironments] at hok ⊢
  rcases h1 : sync_one_environment c remote s e0 vars0 with ⟨r1, s1, t1⟩
  rw [h1] at hok
  cases r1 with
  | error e1 => simp at hok
  | ok u1 =>
      dsimp at hok ⊢
      cases u1
      exact ⟨rfl, hok, rfl⟩

lemma syncAll_count_envPut {σ : Type} (c : GithubEnvClient) (remote : Responder σ)
    (e : String) :
    ∀ (config : ConfigDocument) (s : σ),
      (syncAllEnvironments c remote s config).1 = Except.ok () →
      ((syncAllEnvironments c remote s config).2.2).countP (isEnvPutFor e) =
        config.countP (fun p => p.1 == e) := by
  intro config
  induction config with
  | nil => intro s _; simp [syncAllEnvironments]
  | cons p rest ih =>
      rcases p with ⟨e0, vars0⟩
      intro s hok
      obtain ⟨hone, hrest, htr⟩ := syncAll_ok_parts c remote s e0 vars0 rest hok
      rw [htr, List.countP_append, ih _ hrest, List.countP_cons]
      obtain ⟨htr1, hvok⟩ := sync_one_ok_parts c remote s e0 vars0 hone
      rw [htr1, List.countP_cons]
      have hz : ((syncVars c remote e0
          ((remote s (upsertEnvironmentRequest c e0)).2) vars0).2.2).countP
            (isEnvPutFor e) = 0 := by
        rw [List.countP_eq_zero]
        intro r hr
        have hv := syncVars_all_varCalls c remote e0 vars0
          ((remote s (upsertEnvironmentRequest c e0)).2) r hr
        simp [isEnvPutFor_of_varCall hv]
      rw [hz, isEnvPutFor_upsertEnvironmentRequest]
      by_cases he : (e0 == e) = true <;> simp [he, Nat.add_comm]

lemma syncAll_count_getVar {σ : Type} (c : GithubEnvClient) (remote : Responder σ)
    (e k : String) :
    ∀ (config : ConfigDocument) (s : σ),
      (syncAllEnvironments c remote s config).1 = Except.ok () →
      ((syncAllEnvironments c remote s config).2.2).countP (isGetVarFor e k) =
        (config.map (fun p =>
          if (p.1 == e) = true then p.2.countP (fun q => q.1 == k) else 0)).sum := by
  intro config
  induction config with
  | nil => intro s _; simp [syncAllEnvironments]
  | cons p rest ih =>
      rcases p with ⟨e0, vars0⟩
      intro s hok
      obtain ⟨hone, hrest, htr⟩ := syncAll_ok_parts c remote s e0 vars0 rest hok
      rw [htr, List.countP_append, ih _ hrest]
      obtain ⟨htr1, hvok⟩ := sync_one_ok_parts c remote s e0 vars0 hone
      rw [htr1, List.countP_cons, isGetVarFor_upsertEnvironmentRequest]
      simp only [if_false, List.map_cons, List.sum_cons, Bool.false_eq_true]
      by_cases he : (e0 == e) = true
      · have he2 : e0 = e := by
          exact beq_iff_eq.mp he
        subst he2
        rw [syncVars_countP_get c remote e0 k vars0 _ hvok]
        simp [he, Nat.add_comm]
      · have hz : ((syncVars c remote e0
            ((remote s (upsertEnvironmentRequest c e0)).2) vars0).2.2).countP
              (isGetVarFor e k) = 0 := by
          rw [List.countP_eq_zero]
          intro r hr
          have hv := syncVars_all_varCalls c remote e0 vars0
            ((remote s (upsertEnvironmentRequest c e0)).2) r hr
          have hne : e ≠ e0 := by
            intro hx
            rw [hx] at he
            simp at he
          simp [isGetVarFor_of_varCall_ne hv hne]
        rw [hz]
        simp [he, Nat.add_comm]

lemma syncAll_put_position {σ : Type} (c : GithubEnvClient) (remote : Responder σ) :
    ∀ (config : ConfigDocument) (s : σ),
      (syncAllEnvironments c remote s config).1 = Except.ok () →
      (config.map Prod.fst).Nodup →
      ∀ p ∈ config, ∃ t1 t2,
        (syncAllEnvironments c remote s config).2.2 =
          t1 ++ upsertEnvironmentRequest c p.1 :: t2 ∧
        ∀ r ∈ t1, isVarCallFor p.1 r = false := by
  intro config
  induction config with
  | nil => intro s _ _ p hp; simp at hp
  | cons q rest ih =>
      rcases q with ⟨e0, vars0⟩
      intro s hok hnd p hp
      obtain ⟨hone, hrest, htr⟩ := syncAll_ok_parts c remote s e0 vars0 rest hok
      obtain ⟨htr1, hvok⟩ := sync_one_ok_parts c remote s e0 vars0 hone
      rw [List.map_cons, List.nodup_cons] at hnd
      rcases List.mem_cons.mp hp with hp0 | hpr
      · refine ⟨[], (syncVars c remote e0
            ((remote s (upsertEnvironmentRequest c e0)).2) vars0).2.2 ++
            (syncAllEnvironments c remote
              ((sync_one_environment c remote s e0 vars0).2.1) rest).2.2, ?_, ?_⟩
        · rw [htr, htr1, hp0]
          simp
        · intro r hr
          simp at hr
      · obtain ⟨t1, t2, htr2, hfree⟩ := ih _ hrest hnd.2 p hpr
        refine ⟨(sync_one_environment c remote s e0 vars0).2.2 ++ t1, t2, ?_, ?_⟩
        · rw [htr, htr2, List.append_assoc]
        · intro r hr
          rcases List.mem_append.mp hr with h1 | h2
          · rw [htr1] at h1
            rcases List.mem_cons.mp h1 with h3 | h3
            · rw [h3]
              exact isVarCallFor_upsertEnvironmentRequest c e0 p.1
            · have hv := syncVars_all_varCalls c remote e0 vars0
                ((remote s (upsertEnvironmentRequest c e0)).2) r h3
              have hmem : p.1 ∈ rest.map Prod.fst := List.mem_map_of_mem Prod.fst hpr
              have hne : p.1 ≠ e0 := by
                intro hx
                rw [hx] at hmem
                exact hnd.1 hmem
              exact isVarCallFor_of_varCall_ne hv hne
          · exact hfree r h2

lemma countP_keys_eq_zero {α : Type} :
    ∀ (l : List (String × α)) (k : String), k ∉ l.map Prod.fst →
      l.countP (fun p => p.1 == k) = 0 := by
  intro l k hk
  rw [List.countP_eq_zero]
  intro p hp
  simp only [beq_iff_eq]
  intro hx
  exact hk (hx ▸ List.mem_map_of_mem Prod.fst hp)

lemma countP_keys_eq_one {α : Type} :
    ∀ (l : List (String × α)) (k : String) (v : α), (l.map Prod.fst).Nodup →
      (k, v) ∈ l → l.countP (fun p => p.1 == k) = 1 := by
  intro l
  induction l with
  | nil => intro k v _ hm; simp at hm
  | cons q rest ih =>
      rcases q with ⟨k0, v0⟩
      intro k v hnd hm
      rw [List.map_cons, List.nodup_cons] at hnd
      rw [List.countP_cons]
      rcases List.mem_cons.mp hm with h0 | hr
      · injection h0 with h1 h2
        subst h1
        rw [countP_keys_eq_zero rest k hnd.1]
        simp
      · have hmem : k ∈ rest.map Prod.fst := List.mem_map_of_mem Prod.fst hr
        have hk : k0 ≠ k := by
          intro hx
          rw [hx] at hnd
          exact hnd.1 hmem
        rw [ih k v hnd.2 hr]
        simp [hk]

lemma sum_pick_zero (e k : String) :
    ∀ (config : ConfigDocument), e ∉ config.map Prod.fst →
      (config.map (fun p =>
        if (p.1 == e) = true then p.2.countP (fun q => q.1 == k) else 0)).sum = 0 := by
  intro config
  induction config with
  | nil => intro _; simp
  | cons q rest ih =>
      rcases q with ⟨e0, vars0⟩
      intro hm
      rw [List.map_cons, List.sum_cons]
      have h1 : e0 ≠ e := by
        intro hx
        exact hm (by simp [hx])
      have h2 : e ∉ rest.map Prod.fst := by
        intro hx
        exact hm (by simp [hx])
      rw [ih h2]
      simp [h1]

lemma sum_pick (e k : String) :
    ∀ (config : ConfigDocument) (vars : EnvironmentVars),
      (config.map Prod.fst).Nodup → (e, vars) ∈ config →
      (config.map (fun p =>
        if (p.1 == e) = true then p.2.countP (fun q => q.1 == k) else 0)).sum =
        vars.countP (fun q => q.1 == k) := by
  intro config
  induction config with
  | nil => intro vars _ hm; simp at hm
  | cons q rest ih =>
      rcases q with ⟨e0, vars0⟩
      intro vars hnd hm
      rw [List.map_cons, List.nodup_cons] at hnd
      rw [List.map_cons, List.sum_cons]
      rcases List.mem_cons.mp hm with h0 | hr
      · injection h0 with h1 h2
        subst h1
        subst h2
        rw [sum_pick_zero e k rest hnd.1]
        simp
      · have hmem : e ∈ rest.map Prod.fst := List.mem_map_of_mem Prod.fst hr
        have hk : e0 ≠ e := by
          intro hx
          rw [hx] at hnd
          exact hnd.1 hmem
        rw [ih vars hnd.2 hr]
        simp [hk]

/-- **C4.** With no selector, a successful full-document sync issues exactly
one environment PUT for each environment key of the document and exactly one
variable upsert for each (key, value) pair under each environment (counted
by its existence probe, which each `upsert_environment_variable` call issues
exactly once), and each environment's PUT precedes every variable call for
that environment (no variable call for the environment occurs before its
PUT); no environment or pair is visited twice or skipped.  The document is
an association list with distinct environment names and distinct keys per
environment, covering every iteration order of the source `HashMap`s. -/
theorem full_document_sync_visits_each_once {σ : Type} (c : GithubEnvClient)
    (remote : Responder σ) (s : σ) (config : ConfigDocument)
    (hnodupEnvs : (config.map Prod.fst).Nodup)
    (hnodupVars : ∀ p ∈ config, (p.2.map Prod.fst).Nodup)
    (hok : (syncAllEnvironments c remote s config).1 = Except.ok ()) :
    (∀ p ∈ config,
      ((syncAllEnvironments c remote s config).2.2).countP (isEnvPutFor p.1) = 1) ∧
    (∀ p ∈ config, ∀ q ∈ p.2,
      ((syncAllEnvironments c remote s config).2.2).countP
        (isGetVarFor p.1 q.1) = 1) ∧
    (∀ p ∈ config, ∃ t1 t2,
      (syncAllEnvironments c remote s config).2.2 =
        t1 ++ upsertEnvironmentRequest c p.1 :: t2 ∧
      ∀ r ∈ t1, isVarCallFor p.1 r = false) := by
  refine ⟨?_, ?_, ?_⟩
  · intro p hp
    rw [syncAll_count_envPut c remote p.1 config s hok]
    exact countP_keys_eq_one config p.1 p.2 hnodupEnvs (by rwa [Prod.mk.eta])
  · intro p hp q hq
    rw [syncAll_count_getVar c remote p.1 q.1 config s hok]
    rw [sum_pick p.1 q.1 config p.2 hnodupEnvs (by rwa [Prod.mk.eta])]
    exact countP_keys_eq_one p.2 q.1 q.2 (hnodupVars p hp) (by rwa [Prod.mk.eta])
  · exact syncAll_put_position c remote config s hok hnodupEnvs

/-- Witness for C4: the spec's two-environment document against a remote with
no variables; each environment is PUT once and each pair probed once. -/
theorem full_document_sync_visits_each_once_witness :
    ((([("prod", [("A", "1")]), ("staging", [("B", "2")])] : ConfigDocument).map
        Prod.fst).Nodup ∧
     (syncAllEnvironments client0 serverish ()
        ([("prod", [("A", "1")]), ("staging", [("B", "2")])] : ConfigDocument)).1 =
       Except.ok ()) ∧
    ((syncAllEnvironments client0 serverish ()
        ([("prod", [("A", "1")]), ("staging", [("B", "2")])] : ConfigDocument)).2.2).countP
        (isEnvPutFor "staging") = 1 ∧
    ((syncAllEnvironments client0 serverish ()
        ([("prod", [("A", "1")]), ("staging", [("B", "2")])] : ConfigDocument)).2.2).countP
        (isGetVarFor "prod" "A") = 1 :=
  ⟨⟨by decide, by decide⟩,
   (full_document_sync_visits_each_once client0 serverish ()
      ([("prod", [("A", "1")]), ("staging", [("B", "2")])] : ConfigDocument)
      (by decide) (by decide) (by decide)).1 ("staging", [("B", "2")]) (by decide),
   (full_document_sync_visits_each_once client0 serverish ()
      ([("prod", [("A", "1")]), ("staging", [("B", "2")])] : ConfigDocument)
      (by decide) (by decide) (by decide)).2.1 ("prod", [("A", "1")]) (by decide)
     ("A", "1") (by decide)⟩

/-!
### State reasoning against the reference remote
-/

lemma server_upsert_env (repo : Repository) (c : GithubEnvClient)
    (st : RemoteState) (e : String) :
    upsert_environment c (githubServer repo) st e =
      (Except.ok (), { st with envs := insertEnvName e st.envs },
       [upsertEnvironmentRequest c e]) := by
  rfl

lemma server_get_var_resp (repo : Repository) (c : GithubEnvClient)
    (st : RemoteState) (e k : String) :
    githubServer repo st (getVariableRequest c e k) =
      (match st.varValue e k with
       | some v => ({ status := 200, body := RespBody.varJson v }, st)
       | none => ({ status := 404, body := RespBody.empty }, st)) := by
  rfl

lemma server_repo_resp (repo : Repository) (st : RemoteState)
    (username token owner name : String) :
    githubServer repo st (repoDetailsRequest username token owner name) =
      (if owner = repo.owner.login ∧ name = repo.name then
        ({ status := 200, body := RespBody.repoJson repo }, st)
       else ({ status := 404, body := RespBody.empty }, st)) := by
  rfl

lemma server_upsert_var_state (repo : Repository) (c : GithubEnvClient)
    (st : RemoteState) (e k v : String) :
    (upsert_environment_variable c (githubServer repo) st e k v).1 = Except.ok () ∧
    (upsert_environment_variable c (githubServer repo) st e k v).2.1 =
      setVar st e k v := by
  cases h : st.varValue e k with
  | some w =>
      constructor <;>
        simp [upsert_environment_variable, get_environment_variable,
          update_environment_variable, getVariableRequest, updateVariableRequest,
          githubServer, decodeVariableValue, isErrorStatus, h]
  | none =>
      constructor <;>
        simp [upsert_environment_variable, get_environment_variable,
          create_environment_variable, getVariableRequest, createVariableRequest,
          githubServer, decodeVariableValue, isErrorStatus, h]

lemma server_syncVars_state (repo : Repository) (c : GithubEnvClient) (e : String) :
    ∀ (vars : EnvironmentVars) (st : RemoteState),
      (syncVars c (githubServer repo) e st vars).1 = Except.ok () ∧
      (syncVars c (githubServer repo) e st vars).2.1 = applyVars st e vars := by
  intro vars
  induction vars with
  | nil => intro st; exact ⟨rfl, rfl⟩
  | cons p rest ih =>
      rcases p with ⟨k0, v0⟩
      intro st
      obtain ⟨hres, hst⟩ := server_upsert_var_state repo c st e k0 v0
      simp only [syncVars]
      rcases hu : upsert_environment_variable c (githubServer repo) st e k0 v0
        with ⟨r1, s1, t1⟩
      rw [hu] at hres hst
      dsimp at hres hst
      subst hres
      subst hst
      dsimp
      obtain ⟨h1, h2⟩ := ih (setVar st e k0 v0)
      exact ⟨h1, by rw [h2]; rfl⟩

lemma server_sync_one_state (repo : Repository) (c : GithubEnvClient)
    (st : RemoteState) (e : String) (vars : EnvironmentVars) :
    (sync_one_environment c (githubServer repo) st e vars).1 = Except.ok () ∧
    (sync_one_environment c (githubServer repo) st e vars).2.1 =
      applyVars { st with envs := insertEnvName e st.envs } e vars := by
  unfold sync_one_environment
  rw [server_upsert_env]
  dsimp
  obtain ⟨h1, h2⟩ :=
    server_syncVars_state repo c e vars { st with envs := insertEnvName e st.envs }
  rcases hsv : syncVars c (githubServer repo) e
      { st with envs := insertEnvName e st.envs } vars with ⟨r2, s2, t2⟩
  rw [hsv] at h1 h2
  dsimp at h1 h2
  exact ⟨h1, h2⟩

lemma server_syncAll_state (repo : Repository) (c : GithubEnvClient) :
    ∀ (config : ConfigDocument) (st : RemoteState),
      (syncAllEnvironments c (githubServer repo) st config).1 = Except.ok () ∧
      (syncAllEnvironments c (githubServer repo) st config).2.1 =
        applyConfig st config := by
  intro config
  induction config with
  | nil => intro st; exact ⟨rfl, rfl⟩
  | cons p rest ih =>
      rcases p with ⟨e0, vars0⟩
      intro st
      obtain ⟨h1, h2⟩ := server_sync_one_state repo c st e0 vars0
      simp only [syncAllEnvironments]
      rcases hone : sync_one_environment c (githubServer repo) st e0 vars0
        with ⟨r1, s1, t1⟩
      rw [hone] at h1 h2
      dsimp at h1 h2
      subst h1
      subst h2
      dsimp
      obtain ⟨h3, h4⟩ :=
        ih (applyVars { st with envs := insertEnvName e0 st.envs } e0 vars0)
      exact ⟨h3, by rw [h4]; rfl⟩

lemma server_sync_environments_state (repo : Repository) (st : RemoteState)
    (config : ConfigDocument) (options : Args) :
    (sync_environments (githubServer repo) st config options).2.1 =
      syncModel repo st config options := by
  unfold sync_environments syncModel
  cases hsp : splitOnceSlash options.repository with
  | none => rfl
  | some p =>
      rcases p with ⟨own, rest⟩
      dsimp only
      rw [GithubEnvClient.init_eq]
      set usr := (match options.username with | some u => u | none => own) with husr
      dsimp only
      by_cases hm : own = repo.owner.login ∧ rest = repo.name
      · have hresp : githubServer repo st (repoDetailsRequest usr options.token own rest) =
            ({ status := 200, body := RespBody.repoJson repo }, st) := by
          rw [server_repo_resp, if_pos hm]
        rw [if_pos hm]
        simp only [hresp]
        have h200 : isErrorStatus (200 : Nat) = false := by decide
        simp only [h200, Bool.false_eq_true, if_false, decodeRepository]
        cases hse : options.environment with
        | none =>
            dsimp only
            obtain ⟨h1, h2⟩ := server_syncAll_state repo
              { username := usr, token := options.token, repository := repo } config st
            rcases hall : syncAllEnvironments
                { username := usr, token := options.token, repository := repo }
                (githubServer repo) st config with ⟨r2, s2, t2⟩
            rw [hall] at h1 h2
            dsimp at h1 h2
            subst h1
            dsimp [liftOutcome]
            exact h2
        | some env =>
            dsimp only
            cases hcg : configGet config env with
            | none => rfl
            | some vars =>
                dsimp only
                obtain ⟨h1, h2⟩ := server_sync_one_state repo
                  { username := usr, token := options.token, repository := repo }
                  st env vars
                rcases hone : sync_one_environment
                    { username := usr, token := options.token, repository := repo }
                    (githubServer repo) st env vars with ⟨r2, s2, t2⟩
                rw [hone] at h1 h2
                dsimp at h1 h2
                subst h1
                dsimp [liftOutcome]
                exact h2
      · have hresp : githubServer repo st (repoDetailsRequest usr options.token own rest) =
            ({ status := 404, body := RespBody.empty }, st) := by
          rw [server_repo_resp, if_neg hm]
        rw [if_neg hm]
        simp only [hresp]
        have h404 : isErrorStatus (404 : Nat) = true := by decide
        simp only [h404, if_true, if_pos]

/-!
### Idempotence of the pure sync effect
-/

lemma self_mem_insertEnvName (e : String) (l : List String) :
    e ∈ insertEnvName e l := by
  unfold insertEnvName
  by_cases h : e ∈ l <;> simp [h]

lemma mem_insertEnvName_of_mem {x : String} (e : String) {l : List String}
    (h : x ∈ l) : x ∈ insertEnvName e l := by
  unfold insertEnvName
  by_cases he : e ∈ l <;> simp [he, h]

lemma insertEnvName_of_mem {e : String} {l : List String} (h : e ∈ l) :
    insertEnvName e l = l := by
  simp [insertEnvName, h]

lemma setVar_envs (st : RemoteState) (e k v : String) :
    (setVar st e k v).envs = st.envs := rfl

lemma applyVars_envs (e : String) :
    ∀ (vars : EnvironmentVars) (st : RemoteState),
      (applyVars st e vars).envs = st.envs := by
  intro vars
  induction vars with
  | nil => intro st; rfl
  | cons p rest ih =>
      rcases p with ⟨k0, v0⟩
      intro st
      rw [applyVars, ih]
      rfl

lemma applyVars_varValue (e : String) :
    ∀ (vars : EnvironmentVars) (st : RemoteState) (e2 k2 : String),
      (applyVars st e vars).varValue e2 k2 =
        orO (if e2 = e then lastWriteVars vars k2 else none) (st.varValue e2 k2) := by
  intro vars
  induction vars with
  | nil =>
      intro st e2 k2
      simp [applyVars, lastWriteVars, orO]
  | cons p rest ih =>
      rcases p with ⟨k0, v0⟩
      intro st e2 k2
      rw [applyVars, ih, lastWriteVars]
      by_cases he2 : e2 = e
      · subst he2
        cases hlw : lastWriteVars rest k2 with
        | some v => simp [hlw, orO]
        | none =>
            simp only [hlw, if_pos rfl, orO, setVar]
            by_cases hk : k2 = k0
            · subst hk
              simp [orO]
            · have hk2 : ¬(k0 = k2) := fun hx => hk hx.symm
              simp [hk, hk2, orO]
      · simp [he2, orO, setVar]

lemma applyConfig_envs :
    ∀ (config : ConfigDocument) (st : RemoteState),
      (applyConfig st config).envs = envNamesAfter config st.envs := by
  intro config
  induction config with
  | nil => intro st; rfl
  | cons p rest ih =>
      rcases p with ⟨e0, vars0⟩
      intro st
      rw [applyConfig, ih, applyVars_envs]
      rfl

lemma applyConfig_varValue :
    ∀ (config : ConfigDocument) (st : RemoteState) (e k : String),
      (applyConfig st config).varValue e k =
        orO (lastWriteCfg config e k) (st.varValue e k) := by
  intro config
  induction config with
  | nil => intro st e k; simp [applyConfig, lastWriteCfg, orO]
  | cons p rest ih =>
      rcases p with ⟨e0, vars0⟩
      intro st e k
      rw [applyConfig, ih, lastWriteCfg, applyVars_varValue]
      cases hlw : lastWriteCfg rest e k with
      | some v => simp [orO]
      | none =>
          simp only [orO]
          by_cases he : e = e0
          · subst he
            cases hv : lastWriteVars vars0 k <;> simp [hv, orO]
          · have he2 : ¬(e0 = e) := fun hx => he hx.symm
            simp [he, he2, orO]

lemma envNamesAfter_mono (x : String) :
    ∀ (config : ConfigDocument) (l : List String),
      x ∈ l → x ∈ envNamesAfter config l := by
  intro config
  induction config with
  | nil => intro l h; exact h
  | cons p rest ih =>
      rcases p with ⟨e0, vars0⟩
      intro l h
      exact ih (insertEnvName e0 l) (mem_insertEnvName_of_mem e0 h)

lemma envNamesAfter_has :
    ∀ (config : ConfigDocument) (l : List String) (p : String × EnvironmentVars),
      p ∈ config → p.1 ∈ envNamesAfter config l := by
  intro config
  induction config with
  | nil => intro l p hp; simp at hp
  | cons q rest ih =>
      rcases q with ⟨e0, vars0⟩
      intro l p hp
      rcases List.mem_cons.mp hp with h0 | hr
      · rw [h0]
        exact envNamesAfter_mono e0 rest (insertEnvName e0 l)
          (self_mem_insertEnvName e0 l)
      · exact ih (insertEnvName e0 l) p hr

lemma envNamesAfter_noop :
    ∀ (config : ConfigDocument) (l : List String),
      (∀ p ∈ config, p.1 ∈ l) → envNamesAfter config l = l := by
  intro config
  induction config with
  | nil => intro l _; rfl
  | cons q rest ih =>
      rcases q with ⟨e0, vars0⟩
      intro l h
      rw [envNamesAfter, insertEnvName_of_mem (h (e0, vars0) (List.mem_cons_self _ _))]
      exact ih l (fun p hp => h p (List.mem_cons_of_mem _ hp))

lemma envNamesAfter_idem (config : ConfigDocument) (l : List String) :
    envNamesAfter config (envNamesAfter config l) = envNamesAfter config l :=
  envNamesAfter_noop config (envNamesAfter config l)
    (fun p hp => envNamesAfter_has config l p hp)

lemma orO_self_absorb (q x : Option String) : orO q (orO q x) = orO q x := by
  cases q <;> simp [orO]

lemma applyConfig_idem (config : ConfigDocument) (st : RemoteState) :
    applyConfig (applyConfig st config) config = applyConfig st config := by
  apply RemoteState.ext
  · rw [applyConfig_envs, applyConfig_envs]
    exact envNamesAfter_idem config st.envs
  · funext e k
    rw [applyConfig_varValue, applyConfig_varValue]
    exact orO_self_absorb _ _

lemma applyVars_insert_idem (st : RemoteState) (e : String) (vars : EnvironmentVars) :
    applyVars
      { applyVars { st with envs := insertEnvName e st.envs } e vars with
        envs := insertEnvName e
          (applyVars { st with envs := insertEnvName e st.envs } e vars).envs } e vars =
      applyVars { st with envs := insertEnvName e st.envs } e vars := by
  apply RemoteState.ext
  · simp only [applyVars_envs]
    exact insertEnvName_of_mem (self_mem_insertEnvName e st.envs)
  · funext e2 k2
    simp only [applyVars_varValue]
    exact orO_self_absorb _ _

lemma syncModel_idem (repo : Repository) (config : ConfigDocument)
    (options : Args) (st : RemoteState) :
    syncModel repo (syncModel repo st config options) config options =
      syncModel repo st config options := by
  unfold syncModel
  cases hsp : splitOnceSlash options.repository with
  | none => rfl
  | some p =>
      rcases p with ⟨own, rest⟩
      dsimp only
      by_cases hm : own = repo.owner.login ∧ rest = repo.name
      · rw [if_pos hm, if_pos hm]
        cases hse : options.environment with
        | none =>
            dsimp only
            exact applyConfig_idem config st
        | some env =>
            dsimp only
            cases hcg : configGet config env with
            | none => rfl
            | some vars =>
                dsimp only
                exact applyVars_insert_idem st env vars
      · rw [if_neg hm, if_neg hm]

/-- **C5.** Against the modelled GitHub remote, a repeated sync of an
unchanged document is a no-op in effect: running `sync_environments` a
second time from the state the first run left behind leaves the remote
state unchanged, and calling `upsert_environment` twice with the same name
produces the same remote state as calling it once. -/
theorem sync_unchanged_document_idempotent (repo : Repository)
    (c : GithubEnvClient) (st : RemoteState) (e : String)
    (config : ConfigDocument) (options : Args) :
    (upsert_environment c (githubServer repo)
        ((upsert_environment c (githubServer repo) st e).2.1) e).2.1 =
      (upsert_environment c (githubServer repo) st e).2.1 ∧
    (sync_environments (githubServer repo)
        ((sync_environments (githubServer repo) st config options).2.1)
        config options).2.1 =
      (sync_environments (githubServer repo) st config options).2.1 := by
  constructor
  · simp only [server_upsert_env]
    apply RemoteState.ext
    · exact insertEnvName_of_mem (self_mem_insertEnvName e st.envs)
    · rfl
  · simp only [server_sync_environments_state]
    exact syncModel_idem repo config options st
